import Mathlib

/-!
Shallow embedding of the tee-time-manager roster allocation engine
(src/unnamed/part_008), its persistence queries (src/src/db.js) and the
announcement parser (src/unnamed/part_002), with theorems checking the
specification's claims about position assignment, waitlist promotion,
guest reconciliation, summary generation and announcement parsing.

The SQLite tables `responses` and `guests` for a single event are modelled
as Lean lists kept in insertion (rowid) order; each prepared statement of
db.js becomes a function over that state.  Machine integers are Nat (all
quantities are small non-negative counts), JS `null` positions are
`Option Nat`, and the free-string `status` column is kept as a `String`
exactly as the code stores it.
-/

namespace TeeTime

/-- MAX_PLAYERS = 16 (part_008 line 5); also the DEFAULT 16 of
events.max_players in db.js. -/
def MAX_PLAYERS : Nat := 16

/-- A row of the golfers table, restricted to the columns the allocation
engine reads (id, name). -/
structure Golfer where
  id : Nat
  name : String
  deriving Repr, DecidableEq

/-- A row of the responses table for one event: golfer_id, the joined
golfer name (getResponsesForEvent joins golfers for it), status
('in' / 'out' as a free string, as stored), and the nullable position. -/
structure Response where
  golferId : Nat
  name : String
  status : String
  position : Option Nat
  deriving Repr, DecidableEq

/-- A row of the guests table for one event: surrogate id, host_golfer_id,
name, position. -/
structure Guest where
  id : Nat
  hostId : Nat
  name : String
  position : Nat
  deriving Repr, DecidableEq

/-- The per-event slice of the store: responses and guests in rowid
(insertion) order, plus the next guest surrogate id. -/
structure EventState where
  responses : List Response
  guests : List Guest
  nextGuestId : Nat
  deriving Repr, DecidableEq

/-- The event state before any reply. -/
def emptyState : EventState := ⟨[], [], 0⟩

/-- The position of a response under JS comparison semantics: a null
position coerces to 0 in the numeric comparisons the code performs. -/
def posOf (r : Response) : Nat := r.position.getD 0

/-- db.js getInCountForEvent: COUNT of responses with status = 'in'. -/
def getInCountForEvent (s : EventState) : Nat :=
  (s.responses.filter (fun r => r.status == "in")).length

/-- db.js getGuestCountForEvent: COUNT of all guest rows of the event. -/
def getGuestCountForEvent (s : EventState) : Nat :=
  s.guests.length

/-- part_008 getTotalConfirmedCount: in-responses plus guests. -/
def getTotalConfirmedCount (s : EventState) : Nat :=
  getInCountForEvent s + getGuestCountForEvent s

/-- db.js getNextWaitlistPosition: COALESCE(MAX(position), 16) + 1 over
responses with status = 'in' AND position > 16. -/
def getNextWaitlistPosition (s : EventState) : Nat :=
  (((s.responses.filter
      (fun r => r.status == "in" && decide (MAX_PLAYERS < posOf r))).map posOf).foldl
    max MAX_PLAYERS) + 1

/-- db.js getResponseByGolferAndEvent: the unique row for (event, golfer);
UNIQUE(event_id, golfer_id) makes find? over rowid order exact. -/
def getResponseByGolferAndEvent (s : EventState) (golferId : Nat) : Option Response :=
  s.responses.find? (fun r => r.golferId == golferId)

/-- db.js getGuestsByHost: guest rows of one host, in rowid order. -/
def getGuestsByHost (s : EventState) (hostId : Nat) : List Guest :=
  s.guests.filter (fun gu => gu.hostId == hostId)

/-- db.js upsertResponse: INSERT .. ON CONFLICT(event_id, golfer_id) DO
UPDATE SET status, position.  An update keeps the row in place (same
rowid); an insert appends. -/
def upsertResponse (golferId : Nat) (name status : String) (position : Option Nat)
    (s : EventState) : EventState :=
  if s.responses.any (fun r => r.golferId == golferId) then
    { s with responses := (s.responses.map
        (fun r => if r.golferId == golferId
          then { r with status := status, position := position } else r)) }
  else
    { s with responses := s.responses ++ [⟨golferId, name, status, position⟩] }

/-- The guest-adding loop of recordResponse (part_008 lines 93-108): each
iteration recomputes getTotalConfirmedCount and inserts one guest at
currentTotal + 1 (the code's if/else assigns the same value on both
branches, kept as written). -/
def addGuestsLoop (g : Golfer) : Nat → EventState → EventState
  | 0, s => s
  | n + 1, s =>
    let currentTotal := getTotalConfirmedCount s
    let guestPosition := if currentTotal < MAX_PLAYERS then currentTotal + 1 else currentTotal + 1
    let s1 := { s with
      guests := s.guests ++ [⟨s.nextGuestId, g.id, g.name ++ "'s Guest", guestPosition⟩],
      nextGuestId := s.nextGuestId + 1 }
    addGuestsLoop g n s1

/-- The ids deleted by the guest-removal loop (part_008 lines 109-116):
existingGuests[existingGuests.length - 1 - i] for i = 0 .. toRemove - 1,
i.e. the last toRemove rows of the host's guest list, newest first. -/
def guestIdsToRemove (existingGuests : List Guest) (toRemove : Nat) : List Nat :=
  (existingGuests.reverse.take toRemove).map (fun gu => gu.id)

/-- db.js deleteGuest applied to each id in turn. -/
def deleteGuestsByIds (ids : List Nat) (s : EventState) : EventState :=
  ids.foldl
    (fun st gid => { st with guests := st.guests.filter (fun gu => gu.id != gid) }) s

/-- The while loop of bumpWaitlist (part_008 lines 186-189): starting at
newPosition = 1, increment while takenPositions.has(newPosition) and
newPosition <= MAX_PLAYERS.  The loop body runs at most 16 times (the
guard requires newPosition <= 16), so fuel MAX_PLAYERS + 1 is exact. -/
def firstFreeFrom : Nat → Nat → List Nat → Nat
  | 0, p, _ => p
  | fuel + 1, p, taken =>
    if taken.contains p && decide (p ≤ MAX_PLAYERS) then firstFreeFrom fuel (p + 1) taken
    else p

/-- The value of newPosition after the while loop of bumpWaitlist. -/
def firstFreePos (taken : List Nat) : Nat :=
  firstFreeFrom (MAX_PLAYERS + 1) 1 taken

/-- The ORDER BY position ASC LIMIT 1 of db.js getFirstWaitlisted: the
least-position element, the earlier row winning ties (rowid order). -/
def minByPos : List Response → Option Response
  | [] => none
  | r :: rs =>
    match minByPos rs with
    | none => some r
    | some b => if posOf r ≤ posOf b then some r else some b

/-- db.js getFirstWaitlisted: the response with status = 'in' and
position > 16 of least position. -/
def getFirstWaitlisted (s : EventState) : Option Response :=
  minByPos (s.responses.filter
    (fun r => r.status == "in" && decide (MAX_PLAYERS < posOf r)))

/-- part_008 bumpWaitlist: pick the first waitlisted response, compute the
positions taken by confirmed responses (status = 'in', position <= 16)
and guests (position <= 16), walk up from 1 to the first free slot, and
if it is within capacity update that response's position (db.js
updatePosition targets the selected row; UNIQUE(event_id, golfer_id)
identifies it by its golfer).  Returns the promoted row's old data, as
the code returns `waitlisted`. -/
def bumpWaitlist (s : EventState) : EventState × Option Response :=
  match getFirstWaitlisted s with
  | none => (s, none)
  | some w =>
    let takenPositions :=
      ((s.responses.filter
        (fun r => r.status == "in" && decide (posOf r ≤ MAX_PLAYERS))).map posOf)
      ++ ((s.guests.filter (fun gu => decide (gu.position ≤ MAX_PLAYERS))).map
        (fun gu => gu.position))
    let newPosition := firstFreePos takenPositions
    if newPosition ≤ MAX_PLAYERS then
      ({ s with responses := (s.responses.map
          (fun r => if r.golferId == w.golferId
            then { r with position := some newPosition } else r)) },
        some w)
    else
      (s, none)

/-- The {success, message, position} object recordResponse returns (the
guests field of the JS object is determined by the guestCount argument
and is omitted). -/
structure RecordResult where
  success : Bool
  message : String
  position : Option Nat
  deriving Repr, DecidableEq

/-- part_008 recordResponse (lines 46-153), for an existing event: the
in-branch with its already-in early return, position assignment (counter
below capacity, getNextWaitlistPosition at or above it), guest
reconciliation loops and confirmation message; the out-branch with its
upsert, deleteGuestsByHost and the conditional bumpWaitlist (guarded by
JS truthiness of previousPosition, hence the p != 0 test); and the
invalid-status fallthrough. -/
def recordResponse (g : Golfer) (status : String) (guestCount : Nat)
    (s : EventState) : EventState × RecordResult :=
  let existingResponse := getResponseByGolferAndEvent s g.id
  let wasIn := match existingResponse with
    | some r => r.status == "in"
    | none => false
  let existingGuests := getGuestsByHost s g.id
  if status == "in" then
    let responseCount := getInCountForEvent s
    let guestTotalCount := getGuestCountForEvent s
    let totalConfirmed := responseCount + guestTotalCount
    if wasIn && guestCount == 0 && existingGuests.length == 0 then
      let pos := match existingResponse with
        | some r => posOf r
        | none => 0
      if pos ≤ MAX_PLAYERS then
        (s, ⟨true, s!"You're already in (#{pos} of {MAX_PLAYERS})", some pos⟩)
      else
        (s, ⟨true, s!"You're already on waitlist #{pos - MAX_PLAYERS}", some pos⟩)
    else
      let position :=
        match existingResponse with
        | some r =>
          if r.status == "in" then posOf r
          else if totalConfirmed < MAX_PLAYERS then totalConfirmed + 1
          else getNextWaitlistPosition s
        | none =>
          if totalConfirmed < MAX_PLAYERS then totalConfirmed + 1
          else getNextWaitlistPosition s
      let s1 := if wasIn then s else upsertResponse g.id g.name "in" (some position) s
      let s2 :=
        if existingGuests.length < guestCount then
          addGuestsLoop g (guestCount - existingGuests.length) s1
        else if guestCount < existingGuests.length then
          deleteGuestsByIds (guestIdsToRemove existingGuests (existingGuests.length - guestCount)) s1
        else s1
      let guestWord := if 1 < guestCount then "guests" else "guest"
      let message :=
        if position ≤ MAX_PLAYERS then
          if 0 < guestCount then
            s!"You're in (#{position} of {MAX_PLAYERS}) with {guestCount} {guestWord}"
          else
            s!"You're in (#{position} of {MAX_PLAYERS})"
        else
          let waitlistPos := position - MAX_PLAYERS
          if 0 < guestCount then
            s!"Waitlist #{waitlistPos} with {guestCount} {guestWord}. We'll text you if spots open."
          else
            s!"Waitlist #{waitlistPos}. We'll text you if a spot opens."
      (s2, ⟨true, message, some position⟩)
  else if status == "out" then
    let previousPosition := match existingResponse with
      | some r => r.position
      | none => none
    let s1 := upsertResponse g.id g.name "out" none s
    let s2 := { s1 with guests := s1.guests.filter (fun gu => gu.hostId != g.id) }
    let s3 :=
      if wasIn && (match previousPosition with
          | some p => p != 0 && decide (p ≤ MAX_PLAYERS)
          | none => false) then
        (bumpWaitlist s2).1
      else s2
    (s3, ⟨true, "Got it, you're out.", none⟩)
  else
    (s, ⟨false, "Invalid status", none⟩)

/-! ### Summary builder (part_008 generateSummary, lines 210-275)

The event's display date (formatDateForDisplay, a JS Date day-of-week
computation peripheral to the roster engine) and the joined tee-times
string are passed pre-rendered, as the summary text merely embeds them. -/

/-- JS Array.prototype.join(', '). -/
def joinComma (l : List String) : String := String.intercalate ", " l

/-- Insert x after every element y with le y x: the insertion step of a
stable ascending sort. -/
def stableInsert (le : α → α → Bool) (x : α) : List α → List α
  | [] => [x]
  | y :: ys => if le y x then y :: stableInsert le x ys else x :: y :: ys

/-- JS Array.prototype.sort() (stable since ES2019), modelled as a stable
insertion sort: elements are taken left to right and each lands after all
elements less-or-equal to it, so equal-keyed elements keep their original
order, as in the engine's sort. -/
def jsSortBy (le : α → α → Bool) (l : List α) : List α :=
  l.foldl (fun acc x => stableInsert le x acc) []

/-- Lexicographic comparison of char lists by code point: the order JS
applies to strings in a comparator-less Array.prototype.sort() (UTF-16
code unit order, which agrees with code point order on these names). -/
def charListLe : List Char → List Char → Bool
  | [], _ => true
  | _ :: _, [] => false
  | a :: as, b :: bs =>
    if a.toNat < b.toNat then true
    else if b.toNat < a.toNat then false
    else charListLe as bs

/-- The JS default string order on Lean strings. -/
def jsStringLe (a b : String) : Bool := charListLe a.data b.data

/-- JS Array.prototype.sort() with comparator (a, b) => a.position -
b.position: a stable ascending sort by position. -/
def sortResponsesByPosition (l : List Response) : List Response :=
  jsSortBy (fun a b => posOf a ≤ posOf b) l

/-- JS Array.prototype.sort() with comparator on guest positions. -/
def sortGuestsByPosition (l : List Guest) : List Guest :=
  jsSortBy (fun a b => a.position ≤ b.position) l

/-- JS Array.prototype.sort() with no comparator on an array of names:
lexicographic string order. -/
def sortNames (l : List String) : List String :=
  jsSortBy jsStringLe l

/-- JS String.prototype.trim(): whitespace stripped from both ends. -/
def jsTrim (s : String) : String :=
  ⟨((s.data.dropWhile Char.isWhitespace).reverse.dropWhile
      Char.isWhitespace).reverse⟩

/-- JS String.prototype.split(c) for a single-character separator: every
occurrence splits, empty pieces kept. -/
def splitOnCharAux (c : Char) : List Char → List Char → List (List Char)
  | [], cur => [cur.reverse]
  | x :: xs, cur =>
    if x == c then cur.reverse :: splitOnCharAux c xs []
    else splitOnCharAux c xs (x :: cur)

/-- JS String.prototype.split for the '\n' and '/' separators the parser
uses. -/
def jsSplitOnChar (c : Char) (s : String) : List String :=
  (splitOnCharAux c s.data []).map (fun l => ⟨l⟩)

/-- generateSummary's confirmedGolfers: in-responses at position <= 16,
sorted by position, mapped to names. -/
def confirmedGolferNames (s : EventState) : List String :=
  (sortResponsesByPosition (s.responses.filter
    (fun r => r.status == "in" && decide (posOf r ≤ MAX_PLAYERS)))).map
    (fun r => r.name)

/-- generateSummary's confirmedGuests: guests at position <= 16, sorted by
position, mapped to names. -/
def confirmedGuestNames (s : EventState) : List String :=
  (sortGuestsByPosition (s.guests.filter
    (fun gu => decide (gu.position ≤ MAX_PLAYERS)))).map (fun gu => gu.name)

/-- generateSummary line 231: const confirmed = [...confirmedGolfers,
...confirmedGuests].sort() — the final default sort is lexicographic by
name, not by position. -/
def confirmedNames (s : EventState) : List String :=
  sortNames (confirmedGolferNames s ++ confirmedGuestNames s)

/-- generateSummary's waitlist: golfers then guests at position > 16, each
group sorted by position, concatenated. -/
def waitlistNames (s : EventState) : List String :=
  ((sortResponsesByPosition (s.responses.filter
      (fun r => r.status == "in" && decide (MAX_PLAYERS < posOf r)))).map
    (fun r => r.name))
  ++ ((sortGuestsByPosition (s.guests.filter
      (fun gu => decide (MAX_PLAYERS < gu.position)))).map (fun gu => gu.name))

/-- generateSummary's out bucket: responses with status = 'out'. -/
def outNames (s : EventState) : List String :=
  (s.responses.filter (fun r => r.status == "out")).map (fun r => r.name)

/-- generateSummary's noResponse bucket: active golfers with no response
row for the event. -/
def noResponseNames (allGolfers : List Golfer) (s : EventState) : List String :=
  (allGolfers.filter
    (fun go => !(s.responses.any (fun r => r.golferId == go.id)))).map
    (fun go => go.name)

/-- part_008 generateSummary: header, the always-present IN line (its JS
`confirmed.join(', ') || 'None'` falls back to "None" exactly when the
joined string is empty), and the WAITLIST / OUT / NO RESPONSE lines each
appended only when its bucket is non-empty, then trimmed. -/
def generateSummary (displayDate course timesDisplay : String)
    (allGolfers : List Golfer) (s : EventState) : String :=
  let confirmed := confirmedNames s
  let waitlist := waitlistNames s
  let out := outNames s
  let noResponse := noResponseNames allGolfers s
  let joined := joinComma confirmed
  let summary :=
    s!"Golf {displayDate} {course} - {confirmed.length} confirmed\n"
    ++ s!"Times: {timesDisplay}\n\n"
    ++ s!"IN ({confirmed.length}): " ++ (if joined == "" then "None" else joined) ++ "\n\n"
    ++ (if 0 < waitlist.length then
        s!"WAITLIST ({waitlist.length}): " ++ joinComma waitlist ++ "\n\n" else "")
    ++ (if 0 < out.length then
        s!"OUT ({out.length}): " ++ joinComma out ++ "\n\n" else "")
    ++ (if 0 < noResponse.length then
        s!"NO RESPONSE ({noResponse.length}): " ++ joinComma noResponse else "")
  jsTrim summary

/-! ### Announcement parser (part_002, lines 110-164)

The regex /^golf\s+(\d{1,2}-\d{1,2}-\d{4})/i is modelled by a
character-list matcher.  Taking the maximal digit run and testing its
length against {1,2} is equivalent to the greedy-with-backtracking \d{1,2}
followed by a literal '-': every shorter prefix of the run is followed by
a digit, so backtracking cannot succeed where the run test fails.  The
\d{4} year takes exactly four digits; the regex has no end anchor, so any
trailing text (digits included) is ignored, as in the code. -/

/-- JS parseInt of a single digit character. -/
def digitVal (c : Char) : Nat := c.toNat - 48

/-- The match of /^golf\s+(\d{1,2}-\d{1,2}-\d{4})/i against a line,
returning the three captured components (month, day, year digit strings)
of dateMatch[1]; splitting that capture on '-' recovers exactly these. -/
def matchGolfDate (line : String) : Option (String × String × String) :=
  match line.data with
  | c1 :: c2 :: c3 :: c4 :: rest =>
    if c1.toLower == 'g' && c2.toLower == 'o' && c3.toLower == 'l' && c4.toLower == 'f' then
      match rest with
      | c5 :: rest2 =>
        if c5.isWhitespace then
          let afterSpaces := rest2.dropWhile (fun c => c.isWhitespace)
          let d1 := afterSpaces.takeWhile Char.isDigit
          let r1 := afterSpaces.dropWhile Char.isDigit
          if d1.length == 1 || d1.length == 2 then
            match r1 with
            | '-' :: r2 =>
              let d2 := r2.takeWhile Char.isDigit
              let r3 := r2.dropWhile Char.isDigit
              if d2.length == 1 || d2.length == 2 then
                match r3 with
                | '-' :: r4 =>
                  let y := r4.take 4
                  if y.length == 4 && y.all Char.isDigit then
                    some (⟨d1⟩, ⟨d2⟩, ⟨y⟩)
                  else none
                | _ => none
              else none
            | _ => none
          else none
        else none
      | [] => none
    else none
  | _ => none

/-- JS String.prototype.padStart(2, '0') on a one- or two-digit string. -/
def padStart2 (str : String) : String :=
  if str.length == 1 then "0" ++ str else str

/-- JS String.prototype.replace(':', ''): removes the first colon only. -/
def removeFirstColonAux : List Char → List Char
  | [] => []
  | c :: cs => if c == ':' then cs else c :: removeFirstColonAux cs

/-- raw.replace(':', '') of formatTime. -/
def removeFirstColon (s : String) : String := ⟨removeFirstColonAux s.data⟩

/-- part_002 formatTime (lines 143-164): strip the first colon, require 3
or 4 digits, read the hour from the first one or two digits, keep the
minute digits verbatim, and render H:MM with AM for hour < 12, PM
otherwise, displaying hour 0 as 12 (the JS `hours || 12`). -/
def formatTime (raw : String) : Option String :=
  let cleaned := removeFirstColon raw
  let cs := cleaned.data
  if (cs.length == 3 || cs.length == 4) && cs.all Char.isDigit then
    let hours := if cs.length == 3 then digitVal (cs.headD '0')
      else 10 * digitVal (cs.headD '0') + digitVal ((cs.drop 1).headD '0')
    let minutes : String := if cs.length == 3 then ⟨cs.drop 1⟩ else ⟨cs.drop 2⟩
    let period := if 12 ≤ hours then "PM" else "AM"
    let displayHours := if 12 < hours then hours - 12 else (if hours == 0 then 12 else hours)
    some s!"{displayHours}:{minutes} {period}"
  else
    none

/-- The parsed announcement {date, course, times}. -/
structure Announcement where
  date : String
  course : String
  times : List String
  deriving Repr, DecidableEq

/-- The non-blank trimmed lines of the announcement text (part_002 line
111): trim, split on newline, trim each line, drop empties. -/
def announcementLines (text : String) : List String :=
  ((jsSplitOnChar '\n' (jsTrim text)).map jsTrim).filter (fun l => l != "")

/-- part_002 parseManagerAnnouncement: fewer than three non-blank lines,
a first line not matching the golf-date pattern, or zero valid time
tokens give null; otherwise the ISO date (Y-M-D with zero-padded month
and day), the verbatim second line, and the '/'-separated third-line
tokens converted by formatTime with failures dropped. -/
def parseManagerAnnouncement (text : String) : Option Announcement :=
  let lines := announcementLines text
  if lines.length < 3 then none
  else
    match matchGolfDate (lines.headD "") with
    | none => none
    | some (m, d, y) =>
      let date := y ++ "-" ++ padStart2 m ++ "-" ++ padStart2 d
      let course := (lines.drop 1).headD ""
      let timesRaw := (jsSplitOnChar '/' ((lines.drop 2).headD "")).map jsTrim
      let times := timesRaw.filterMap formatTime
      if times.length == 0 then none
      else some ⟨date, course, times⟩

/-! ### Sequential sign-up histories

A run of first-time `in` replies with zero guests, one recordResponse per
golfer, as quantified over by the spec's testable properties. -/

/-- The final state after each golfer in turn records `in` with no
guests. -/
def runIns : List Golfer → EventState → EventState
  | [], s => s
  | x :: gs, s => runIns gs (recordResponse x "in" 0 s).1

/-- The per-step results of the same run. -/
def runInsResults : List Golfer → EventState → List RecordResult
  | [], _ => []
  | x :: gs, s => (recordResponse x "in" 0 s).2 :: runInsResults gs (recordResponse x "in" 0 s).1

/-- The response rows after a sequential guest-free run: one `in` row per
golfer at positions k+1, k+2, .... -/
def mkInResponses : List Golfer → Nat → List Response
  | [], _ => []
  | x :: gs, k => ⟨x.id, x.name, "in", some (k + 1)⟩ :: mkInResponses gs (k + 1)

/-- The event state reached by a sequential guest-free run. -/
def seqState (gs : List Golfer) : EventState := ⟨mkInResponses gs 0, [], 0⟩

/-- The positions held by in-responses together with guest positions: the
combined ordering space whose per-event uniqueness the data model
asserts. -/
def takenAllPositions (s : EventState) : List Nat :=
  (s.responses.filter (fun r => r.status == "in")).map posOf
    ++ s.guests.map (fun gu => gu.position)

/-- The confirmed positions of a state, in row order. -/
def confirmedPositions (s : EventState) : List Nat :=
  (s.responses.filter
    (fun r => r.status == "in" && decide (posOf r ≤ MAX_PLAYERS))).map posOf

theorem mkInResponses_length (gs : List Golfer) (k : Nat) :
    (mkInResponses gs k).length = gs.length := by
  induction gs generalizing k with
  | nil => rfl
  | cons x gs ih => simp [mkInResponses, ih]

theorem mkInResponses_map_pos (gs : List Golfer) (k : Nat) :
    (mkInResponses gs k).map posOf = List.range' (k + 1) gs.length := by
  induction gs generalizing k with
  | nil => rfl
  | cons x gs ih =>
    simp only [mkInResponses, List.map_cons, ih, List.length_cons]
    rw [List.range'_succ]
    rfl

theorem mkInResponses_map_position (gs : List Golfer) (k : Nat) :
    (mkInResponses gs k).map Response.position
      = (List.range' (k + 1) gs.length).map some := by
  induction gs generalizing k with
  | nil => rfl
  | cons x gs ih =>
    simp only [mkInResponses, List.map_cons, ih, List.length_cons]
    rw [List.range'_succ]
    rfl

theorem mkInResponses_status (gs : List Golfer) (k : Nat) :
    ∀ r ∈ mkInResponses gs k, r.status = "in" := by
  induction gs generalizing k with
  | nil => intro r h; cases h
  | cons x gs ih =>
    intro r h
    rcases List.mem_cons.mp h with h | h
    · rw [h]
    · exact ih (k + 1) r h

theorem mkInResponses_map_golferId (gs : List Golfer) (k : Nat) :
    (mkInResponses gs k).map Response.golferId = gs.map Golfer.id := by
  induction gs generalizing k with
  | nil => rfl
  | cons x gs ih => simp [mkInResponses, ih]

theorem mkInResponses_append_one (gs : List Golfer) (x : Golfer) (k : Nat) :
    mkInResponses (gs ++ [x]) k
      = mkInResponses gs k ++ [⟨x.id, x.name, "in", some (k + gs.length + 1)⟩] := by
  induction gs generalizing k with
  | nil => rfl
  | cons y gs ih =>
    have harith : k + 1 + gs.length + 1 = k + (gs.length + 1) + 1 := by omega
    simp only [List.cons_append, mkInResponses, List.append_eq, ih (k + 1),
      List.length_cons, harith]

theorem seqState_find?_eq_none (gs : List Golfer) (x : Golfer)
    (hx : x.id ∉ gs.map Golfer.id) :
    getResponseByGolferAndEvent (seqState gs) x.id = none := by
  apply List.find?_eq_none.mpr
  intro r hr
  simp only [beq_iff_eq]
  intro h
  apply hx
  have : r.golferId ∈ (mkInResponses gs 0).map Response.golferId :=
    List.mem_map_of_mem _ hr
  rwa [mkInResponses_map_golferId, h] at this

theorem seqState_inCount (gs : List Golfer) :
    getInCountForEvent (seqState gs) = gs.length := by
  unfold getInCountForEvent seqState
  rw [List.filter_eq_self.mpr, mkInResponses_length]
  intro r hr
  simp [mkInResponses_status gs 0 r hr]

theorem foldl_max_range'_filter (n : Nat) :
    (((List.range' 1 n).filter (fun p => decide (MAX_PLAYERS < p))).foldl
       max MAX_PLAYERS) = max MAX_PLAYERS n := by
  induction n with
  | zero => simp [MAX_PLAYERS]
  | succ n ih =>
    have hc : List.range' 1 (n + 1) = List.range' 1 n ++ [1 + n] := by
      rw [List.range'_concat]
      norm_num
    rw [hc, List.filter_append, List.foldl_append, ih]
    by_cases h : MAX_PLAYERS < 1 + n
    · have hf : (List.filter (fun p => decide (MAX_PLAYERS < p)) [1 + n])
          = [1 + n] := by simp [h]
      rw [hf]
      simp only [List.foldl_cons, List.foldl_nil]
      simp only [MAX_PLAYERS] at h ⊢
      omega
    · have hf : (List.filter (fun p => decide (MAX_PLAYERS < p)) [1 + n])
          = [] := by simp [h]
      rw [hf]
      simp only [List.foldl_nil]
      simp only [MAX_PLAYERS] at h ⊢
      omega

theorem seqState_nextWaitlist (gs : List Golfer) :
    getNextWaitlistPosition (seqState gs) = max MAX_PLAYERS gs.length + 1 := by
  unfold getNextWaitlistPosition
  have hst : ∀ r ∈ (seqState gs).responses, r.status = "in" :=
    mkInResponses_status gs 0
  have hfil : (seqState gs).responses.filter
        (fun r => r.status == "in" && decide (MAX_PLAYERS < posOf r))
      = (seqState gs).responses.filter (fun r => decide (MAX_PLAYERS < posOf r)) := by
    apply List.filter_congr
    intro r hr
    simp [hst r hr]
  rw [hfil]
  have hcomm : ((seqState gs).responses.filter
        (fun r => decide (MAX_PLAYERS < posOf r))).map posOf
      = ((seqState gs).responses.map posOf).filter (fun p => decide (MAX_PLAYERS < p)) := by
    rw [List.filter_map]
    rfl
  rw [hcomm]
  show ((((mkInResponses gs 0).map posOf).filter
      (fun p => decide (MAX_PLAYERS < p))).foldl max MAX_PLAYERS) + 1 = _
  rw [mkInResponses_map_pos, foldl_max_range'_filter]

/-- The message recordResponse returns for a fresh guest-free `in` at
position p. -/
def seqMessage (p : Nat) : String :=
  if p ≤ MAX_PLAYERS then s!"You're in (#{p} of {MAX_PLAYERS})"
  else s!"Waitlist #{p - MAX_PLAYERS}. We'll text you if a spot opens."

/-- One sequential step: a fresh golfer's guest-free `in` appends a row at
position n + 1 (counter below capacity, COALESCE(MAX(position), 16) + 1 at
or above it, both equal to the running total plus one on a gap-free
prefix). -/
theorem recordResponse_seq_step (x : Golfer) (gs : List Golfer)
    (hx : x.id ∉ gs.map Golfer.id) :
    recordResponse x "in" 0 (seqState gs)
      = (seqState (gs ++ [x]),
         ⟨true, seqMessage (gs.length + 1), some (gs.length + 1)⟩) := by
  have hfind := seqState_find?_eq_none gs x hx
  have hcount := seqState_inCount gs
  have hnext := seqState_nextWaitlist gs
  unfold recordResponse
  rw [hfind]
  simp only [Bool.false_and, Bool.and_self, if_neg (by decide : ¬ ("in" == "in") = false)]
  have hguests : getGuestsByHost (seqState gs) x.id = [] := rfl
  have hgcount : getGuestCountForEvent (seqState gs) = 0 := rfl
  simp only [hguests, hgcount, hcount, Nat.add_zero, List.length_nil,
    if_true, beq_self_eq_true, Bool.false_and, Bool.and_false]
  have hpos : (if gs.length < MAX_PLAYERS then gs.length + 1
      else getNextWaitlistPosition (seqState gs)) = gs.length + 1 := by
    by_cases h : gs.length < MAX_PLAYERS
    · simp [h]
    · rw [if_neg h, hnext]
      omega
  have hupsert : upsertResponse x.id x.name "in" (some (gs.length + 1)) (seqState gs)
      = seqState (gs ++ [x]) := by
    unfold upsertResponse
    have hany : (seqState gs).responses.any (fun r => r.golferId == x.id) = false := by
      rw [List.any_eq_false]
      intro r hr
      simp only [beq_iff_eq]
      intro h
      apply hx
      have : r.golferId ∈ (mkInResponses gs 0).map Response.golferId :=
        List.mem_map_of_mem _ hr
      rwa [mkInResponses_map_golferId, h] at this
    rw [hany]
    simp only [Bool.false_eq_true, if_false, seqState, mkInResponses_append_one,
      Nat.zero_add]
  simp only [hpos, hupsert]
  unfold seqMessage
  by_cases h : gs.length + 1 ≤ MAX_PLAYERS
  · simp [h]
  · simp [h]

theorem runIns_seq (gs : List Golfer) : ∀ pre : List Golfer,
    ((pre ++ gs).map Golfer.id).Nodup →
    runIns gs (seqState pre) = seqState (pre ++ gs) := by
  induction gs with
  | nil => intro pre _; simp [runIns]
  | cons x gs ih =>
    intro pre h
    have hmap : ((pre ++ x :: gs).map Golfer.id)
        = pre.map Golfer.id ++ x.id :: gs.map Golfer.id := by simp
    have hx : x.id ∉ pre.map Golfer.id := by
      have h' := h
      rw [hmap, List.nodup_append] at h'
      exact fun hmem => h'.2.2 hmem (List.mem_cons_self _ _)
    have h2 : (((pre ++ [x]) ++ gs).map Golfer.id).Nodup := by
      rw [List.append_assoc, List.singleton_append]
      exact h
    unfold runIns
    rw [recordResponse_seq_step x pre hx]
    have := ih (pre ++ [x]) h2
    rw [this, List.append_assoc, List.singleton_append]

/-- The results of a sequential guest-free run starting from n prior
sign-ups: step n + k gets position n + k + 1. -/
def seqResults : Nat → List Golfer → List RecordResult
  | _, [] => []
  | n, _ :: gs => ⟨true, seqMessage (n + 1), some (n + 1)⟩ :: seqResults (n + 1) gs

theorem runInsResults_seq (gs : List Golfer) : ∀ pre : List Golfer,
    ((pre ++ gs).map Golfer.id).Nodup →
    runInsResults gs (seqState pre) = seqResults pre.length gs := by
  induction gs with
  | nil => intro pre _; rfl
  | cons x gs ih =>
    intro pre h
    have hmap : ((pre ++ x :: gs).map Golfer.id)
        = pre.map Golfer.id ++ x.id :: gs.map Golfer.id := by simp
    have hx : x.id ∉ pre.map Golfer.id := by
      have h' := h
      rw [hmap, List.nodup_append] at h'
      exact fun hmem => h'.2.2 hmem (List.mem_cons_self _ _)
    have h2 : (((pre ++ [x]) ++ gs).map Golfer.id).Nodup := by
      rw [List.append_assoc, List.singleton_append]
      exact h
    unfold runInsResults
    rw [recordResponse_seq_step x pre hx]
    have := ih (pre ++ [x]) h2
    rw [this]
    simp [seqResults]

theorem seqResults_get? (gs : List Golfer) : ∀ n k : Nat, k < gs.length →
    (seqResults n gs).get? k
      = some ⟨true, seqMessage (n + k + 1), some (n + k + 1)⟩ := by
  induction gs with
  | nil => intro n k hk; simp at hk
  | cons x gs ih =>
    intro n k hk
    cases k with
    | zero => rfl
    | succ k =>
      have hk' : k < gs.length := by simpa using hk
      show (seqResults (n + 1) gs).get? k = _
      rw [ih (n + 1) k hk']
      have : n + 1 + k + 1 = n + (k + 1) + 1 := by omega
      rw [this]

theorem seqResults_map_pos (gs : List Golfer) : ∀ n : Nat,
    (seqResults n gs).map (fun res => res.position.getD 0)
      = List.range' (n + 1) gs.length := by
  induction gs with
  | nil => intro n; rfl
  | cons x gs ih =>
    intro n
    show (n + 1) :: (seqResults (n + 1) gs).map (fun res => res.position.getD 0) = _
    rw [ih (n + 1), List.length_cons, List.range'_succ]

theorem range'_filter_le_max (n : Nat) :
    (List.range' 1 n).filter (fun p => decide (p ≤ MAX_PLAYERS))
      = List.range' 1 (min n MAX_PLAYERS) := by
  induction n with
  | zero => simp
  | succ n ih =>
    have hc : List.range' 1 (n + 1) = List.range' 1 n ++ [1 + n] := by
      rw [List.range'_concat]
      norm_num
    rw [hc, List.filter_append, ih]
    by_cases h : 1 + n ≤ MAX_PLAYERS
    · have hf : (List.filter (fun p => decide (p ≤ MAX_PLAYERS)) [1 + n])
          = [1 + n] := by simp [h]
      have hmin : min n MAX_PLAYERS = n := by omega
      have hmin' : min (n + 1) MAX_PLAYERS = n + 1 := by omega
      rw [hf, hmin, hmin', ← hc]
    · have hf : (List.filter (fun p => decide (p ≤ MAX_PLAYERS)) [1 + n])
          = [] := by simp [h]
      have hmin : min n MAX_PLAYERS = MAX_PLAYERS := by omega
      have hmin' : min (n + 1) MAX_PLAYERS = MAX_PLAYERS := by omega
      rw [hf, hmin, hmin', List.append_nil]

theorem seqState_confirmedPositions (gs : List Golfer) :
    confirmedPositions (seqState gs)
      = List.range' 1 (min gs.length MAX_PLAYERS) := by
  unfold confirmedPositions
  have hst : ∀ r ∈ (seqState gs).responses, r.status = "in" :=
    mkInResponses_status gs 0
  have hfil : (seqState gs).responses.filter
        (fun r => r.status == "in" && decide (posOf r ≤ MAX_PLAYERS))
      = (seqState gs).responses.filter (fun r => decide (posOf r ≤ MAX_PLAYERS)) := by
    apply List.filter_congr
    intro r hr
    simp [hst r hr]
  rw [hfil]
  have hcomm : ((seqState gs).responses.filter
        (fun r => decide (posOf r ≤ MAX_PLAYERS))).map posOf
      = ((seqState gs).responses.map posOf).filter
          (fun p => decide (p ≤ MAX_PLAYERS)) := by
    rw [List.filter_map]
    rfl
  rw [hcomm]
  show (((mkInResponses gs 0).map posOf).filter (fun p => decide (p ≤ MAX_PLAYERS))) = _
  rw [mkInResponses_map_pos, range'_filter_le_max]

theorem seqState_takenAllPositions (gs : List Golfer) :
    takenAllPositions (seqState gs) = List.range' 1 gs.length := by
  unfold takenAllPositions
  have hst : ∀ r ∈ (seqState gs).responses, r.status = "in" :=
    mkInResponses_status gs 0
  have hfil : (seqState gs).responses.filter (fun r => r.status == "in")
      = (seqState gs).responses := by
    apply List.filter_eq_self.mpr
    intro r hr
    simp [hst r hr]
  rw [hfil]
  show (mkInResponses gs 0).map posOf ++ [] = _
  rw [List.append_nil, mkInResponses_map_pos]

/-- C1: over any sequence of n distinct golfers each recording a
first-time guest-free `in` on a fresh event, the response positions are
exactly 1..n in arrival order (so the confirmed ones are 1..min(n, 16)
with no gaps or duplicates), no guests exist, and the k-th responder with
k ≤ 16 gets the confirmation message naming position k. -/
theorem c1_sequential_in_positions (gs : List Golfer)
    (hnd : (gs.map Golfer.id).Nodup) :
    ((runIns gs emptyState).responses.map Response.position
        = (List.range' 1 gs.length).map some)
    ∧ confirmedPositions (runIns gs emptyState)
        = List.range' 1 (min gs.length MAX_PLAYERS)
    ∧ (runIns gs emptyState).guests = []
    ∧ ∀ k, k < gs.length → k < MAX_PLAYERS →
        (runInsResults gs emptyState).get? k
          = some ⟨true, s!"You're in (#{k + 1} of {MAX_PLAYERS})", some (k + 1)⟩ := by
  have hrun : runIns gs emptyState = seqState gs := by
    have h := runIns_seq gs [] (by simpa using hnd)
    simpa using h
  have hres : runInsResults gs emptyState = seqResults 0 gs := by
    have h := runInsResults_seq gs [] (by simpa using hnd)
    simpa using h
  refine ⟨?_, ?_, ?_, ?_⟩
  · rw [hrun]
    show (mkInResponses gs 0).map Response.position = _
    have h := mkInResponses_map_position gs 0
    simpa using h
  · rw [hrun]
    exact seqState_confirmedPositions gs
  · rw [hrun]; rfl
  · intro k h1 h2
    rw [hres, seqResults_get? gs 0 k h1]
    have hz : 0 + k + 1 = k + 1 := by omega
    rw [hz]
    have hle : k + 1 ≤ MAX_PLAYERS := by
      simp only [MAX_PLAYERS] at h2 ⊢
      omega
    unfold seqMessage
    rw [if_pos hle]

/-- C3 counterexample: after G1, G2, G3 record `in` (positions 1, 2, 3),
G1 records `out` (no waitlist, so no promotion), and G4 records a fresh
`in`, the counter totalConfirmed + 1 = 3 collides with G3's live
position: the combined position list is [2, 3, 3], not pairwise distinct.
Likewise, after G1, G2 record `in` and G2 records `out`, a fresh sign-up
G3 receives exactly the position 2 that the cancellation freed, so the
counter does reuse freed positions. -/
theorem c3_counterexample :
    (takenAllPositions
        (recordResponse ⟨4, "G4"⟩ "in" 0
          (recordResponse ⟨1, "G1"⟩ "out" 0
            (runIns [⟨1, "G1"⟩, ⟨2, "G2"⟩, ⟨3, "G3"⟩] emptyState)).1).1
      = [2, 3, 3])
    ∧ ¬ (takenAllPositions
        (recordResponse ⟨4, "G4"⟩ "in" 0
          (recordResponse ⟨1, "G1"⟩ "out" 0
            (runIns [⟨1, "G1"⟩, ⟨2, "G2"⟩, ⟨3, "G3"⟩] emptyState)).1).1).Nodup
    ∧ (recordResponse ⟨3, "G3"⟩ "in" 0
        (recordResponse ⟨2, "G2"⟩ "out" 0
          (runIns [⟨1, "G1"⟩, ⟨2, "G2"⟩] emptyState)).1).2.position = some 2 := by
  decide

/-- C3 amended: for histories consisting solely of first-time guest-free
`in` responses (no cancellations, no guest operations), the positions of
in-responses and guests combined are pairwise distinct and the sign-up
counter is strictly increasing; once a cancellation intervenes, a later
sign-up can reuse a freed or even a live position (the counterexample). -/
theorem c3_amended_distinct_positions_pure_in (gs : List Golfer)
    (hnd : (gs.map Golfer.id).Nodup) :
    (takenAllPositions (runIns gs emptyState)).Nodup
    ∧ ((runInsResults gs emptyState).map (fun res => res.position.getD 0)
        = List.range' 1 gs.length)
    ∧ List.Pairwise (· < ·)
        ((runInsResults gs emptyState).map (fun res => res.position.getD 0)) := by
  have hrun : runIns gs emptyState = seqState gs := by
    have h := runIns_seq gs [] (by simpa using hnd)
    simpa using h
  have hres : runInsResults gs emptyState = seqResults 0 gs := by
    have h := runInsResults_seq gs [] (by simpa using hnd)
    simpa using h
  have hmap : (runInsResults gs emptyState).map (fun res => res.position.getD 0)
      = List.range' 1 gs.length := by
    rw [hres]
    have h := seqResults_map_pos gs 0
    simpa using h
  refine ⟨?_, hmap, ?_⟩
  · rw [hrun, seqState_takenAllPositions]
    exact List.nodup_range' 1 gs.length
  · rw [hmap]
    exact List.pairwise_lt_range' 1 gs.length

/-- C6: when n ≥ 16 golfers are already `in` after a sequential guest-free
run, the next fresh `in` is assigned position n + 1, i.e. waitlist rank
n - 16 + 1, with the corresponding waitlist message; across the whole run
the assigned positions are 1, 2, ..., n + 1, strictly increasing and
never reused. -/
theorem c6_waitlist_rank_monotone (gs : List Golfer) (x : Golfer)
    (hnd : ((gs ++ [x]).map Golfer.id).Nodup)
    (hn : MAX_PLAYERS ≤ gs.length) :
    (recordResponse x "in" 0 (runIns gs emptyState)).2.position
        = some (gs.length + 1)
    ∧ (recordResponse x "in" 0 (runIns gs emptyState)).2.message
        = s!"Waitlist #{gs.length - MAX_PLAYERS + 1}. We'll text you if a spot opens."
    ∧ ((runInsResults (gs ++ [x]) emptyState).map (fun res => res.position.getD 0)
        = List.range' 1 (gs.length + 1))
    ∧ List.Pairwise (· < ·)
        ((runInsResults (gs ++ [x]) emptyState).map (fun res => res.position.getD 0)) := by
  have hndpre : (gs.map Golfer.id).Nodup := by
    rw [List.map_append, List.nodup_append] at hnd
    exact hnd.1
  have hx : x.id ∉ gs.map Golfer.id := by
    rw [List.map_append, List.nodup_append] at hnd
    exact fun hmem => hnd.2.2 hmem (by simp)
  have hrun : runIns gs emptyState = seqState gs := by
    have h := runIns_seq gs [] (by simpa using hndpre)
    simpa using h
  have hstep := recordResponse_seq_step x gs hx
  have hnle : ¬ (gs.length + 1 ≤ MAX_PLAYERS) := by
    simp only [MAX_PLAYERS] at hn ⊢
    omega
  have hmsg : seqMessage (gs.length + 1)
      = s!"Waitlist #{gs.length - MAX_PLAYERS + 1}. We'll text you if a spot opens." := by
    unfold seqMessage
    rw [if_neg hnle]
    have : gs.length + 1 - MAX_PLAYERS = gs.length - MAX_PLAYERS + 1 := by
      simp only [MAX_PLAYERS] at hn ⊢
      omega
    rw [this]
  have hres : runInsResults (gs ++ [x]) emptyState = seqResults 0 (gs ++ [x]) := by
    have h := runInsResults_seq (gs ++ [x]) [] (by simpa using hnd)
    simpa using h
  have hmap : (runInsResults (gs ++ [x]) emptyState).map (fun res => res.position.getD 0)
      = List.range' 1 (gs.length + 1) := by
    rw [hres]
    have h := seqResults_map_pos (gs ++ [x]) 0
    simpa using h
  refine ⟨?_, ?_, hmap, ?_⟩
  · rw [hrun, hstep]
  · rw [hrun, hstep]
    exact hmsg
  · rw [hmap]
    exact List.pairwise_lt_range' 1 (gs.length + 1)

/-! ### Promotion-path lemmas: the selection, the first-fit scan, and the
shape of the `out` transition. -/

theorem minByPos_eq_none (l : List Response) : minByPos l = none ↔ l = [] := by
  cases l with
  | nil => simp [minByPos]
  | cons r rs =>
    simp only [minByPos]
    constructor
    · intro h
      split at h
      · simp at h
      · split at h <;> simp at h
    · intro h
      exact (List.cons_ne_nil r rs h).elim

theorem minByPos_mem (l : List Response) : ∀ w, minByPos l = some w → w ∈ l := by
  induction l with
  | nil => intro w h; cases h
  | cons r rs ih =>
    intro w h
    simp only [minByPos] at h
    split at h
    · cases h
      exact List.mem_cons_self _ _
    · rename_i b hm
      split at h
      · cases h
        exact List.mem_cons_self _ _
      · have hbw : b = w := Option.some.inj h
        exact List.mem_cons_of_mem _ (hbw ▸ ih b hm)

theorem minByPos_min (l : List Response) : ∀ w, minByPos l = some w →
    ∀ r ∈ l, posOf w ≤ posOf r := by
  induction l with
  | nil => intro w h; cases h
  | cons r rs ih =>
    intro w h x hx
    simp only [minByPos] at h
    split at h
    · rename_i hm
      cases h
      have hnil : rs = [] := (minByPos_eq_none rs).mp hm
      subst hnil
      rcases List.mem_cons.mp hx with hx | hx
      · rw [hx]
      · cases hx
    · rename_i b hm
      split at h
      · rename_i hle
        cases h
        rcases List.mem_cons.mp hx with hx | hx
        · rw [hx]
        · exact le_trans hle (ih b hm x hx)
      · rename_i hle
        have hbw : b = w := Option.some.inj h
        rcases List.mem_cons.mp hx with hx | hx
        · rw [hx, ← hbw]
          exact le_of_not_le hle
        · rw [← hbw]
          exact ih b hm x hx

theorem firstFreeFrom_ge : ∀ (fuel p : Nat) (taken : List Nat),
    p ≤ firstFreeFrom fuel p taken := by
  intro fuel
  induction fuel with
  | zero => intro p taken; exact le_refl p
  | succ fuel ih =>
    intro p taken
    unfold firstFreeFrom
    by_cases h : (taken.contains p && decide (p ≤ MAX_PLAYERS)) = true
    · rw [if_pos h]
      exact le_trans (Nat.le_succ p) (ih (p + 1) taken)
    · rw [if_neg h]

theorem firstFreeFrom_skipped : ∀ (fuel p : Nat) (taken : List Nat) (q : Nat),
    p ≤ q → q < firstFreeFrom fuel p taken →
    taken.contains q = true ∧ q ≤ MAX_PLAYERS := by
  intro fuel
  induction fuel with
  | zero =>
    intro p taken q hpq hq
    simp only [firstFreeFrom] at hq
    omega
  | succ fuel ih =>
    intro p taken q hpq hq
    unfold firstFreeFrom at hq
    by_cases h : (taken.contains p && decide (p ≤ MAX_PLAYERS)) = true
    · rw [if_pos h] at hq
      by_cases hqp : q = p
      · subst hqp
        simpa using h
      · exact ih (p + 1) taken q (by omega) hq
    · rw [if_neg h] at hq
      omega

theorem firstFreeFrom_le : ∀ (fuel p : Nat) (taken : List Nat),
    firstFreeFrom fuel p taken ≤ p + fuel := by
  intro fuel
  induction fuel with
  | zero => intro p taken; simp [firstFreeFrom]
  | succ fuel ih =>
    intro p taken
    unfold firstFreeFrom
    by_cases h : (taken.contains p && decide (p ≤ MAX_PLAYERS)) = true
    · rw [if_pos h]
      have := ih (p + 1) taken
      omega
    · rw [if_neg h]
      omega

theorem firstFreeFrom_stop : ∀ (fuel p : Nat) (taken : List Nat),
    firstFreeFrom fuel p taken < p + fuel →
    ¬ (taken.contains (firstFreeFrom fuel p taken) = true
        ∧ firstFreeFrom fuel p taken ≤ MAX_PLAYERS) := by
  intro fuel
  induction fuel with
  | zero =>
    intro p taken h
    simp only [firstFreeFrom] at h
    omega
  | succ fuel ih =>
    intro p taken h
    unfold firstFreeFrom at h ⊢
    by_cases hc : (taken.contains p && decide (p ≤ MAX_PLAYERS)) = true
    · rw [if_pos hc] at h ⊢
      exact ih (p + 1) taken (by omega)
    · rw [if_neg hc] at h ⊢
      intro hcon
      apply hc
      rw [hcon.1]
      simpa using hcon.2

/-- The first-fit scan, fully specified when some slot within capacity is
free: it lands on the least free position in [1, 16]. -/
theorem firstFreePos_spec (taken : List Nat) (q0 : Nat)
    (h1 : 1 ≤ q0) (h16 : q0 ≤ MAX_PLAYERS) (hfree : ¬ q0 ∈ taken) :
    1 ≤ firstFreePos taken ∧ firstFreePos taken ≤ MAX_PLAYERS
    ∧ ¬ firstFreePos taken ∈ taken
    ∧ ∀ q, 1 ≤ q → q < firstFreePos taken → q ∈ taken := by
  have hff : firstFreeFrom (MAX_PLAYERS + 1) 1 taken = firstFreePos taken := rfl
  have hge : 1 ≤ firstFreePos taken := by
    rw [← hff]
    exact firstFreeFrom_ge (MAX_PLAYERS + 1) 1 taken
  have hle0 : firstFreePos taken ≤ q0 := by
    by_contra hgt
    have hsk := firstFreeFrom_skipped (MAX_PLAYERS + 1) 1 taken q0 h1 (by
      rw [hff]
      omega)
    exact hfree (List.elem_iff.mp hsk.1)
  have hcapped : firstFreePos taken ≤ MAX_PLAYERS := le_trans hle0 h16
  have hstop := firstFreeFrom_stop (MAX_PLAYERS + 1) 1 taken
  rw [hff] at hstop
  have hnotmem : ¬ firstFreePos taken ∈ taken := by
    intro hmem
    exact hstop (by omega) ⟨List.elem_iff.mpr hmem, hcapped⟩
  refine ⟨hge, hcapped, hnotmem, ?_⟩
  intro q hq1 hq2
  exact List.elem_iff.mp
    (firstFreeFrom_skipped (MAX_PLAYERS + 1) 1 taken q hq1 hq2).1

/-- Mapping a by-golfer row update over the rows and then filtering with a
predicate the updated row fails is filtering the original rows with the
conjunction. -/
theorem filter_map_golfer_update (l : List Response) (gid : Nat)
    (upd : Response → Response) (p : Response → Bool)
    (hp : ∀ r, p (upd r) = false) :
    (l.map (fun r => if r.golferId == gid then upd r else r)).filter p
      = l.filter (fun r => !(r.golferId == gid) && p r) := by
  induction l with
  | nil => rfl
  | cons r rs ih =>
    rw [List.map_cons, List.filter_cons, List.filter_cons]
    by_cases h : r.golferId = gid
    · have hbeq : (r.golferId == gid) = true := by simpa using h
      rw [if_pos hbeq, hp r, hbeq]
      simp only [Bool.not_true, Bool.false_and, Bool.false_eq_true, if_false]
      exact ih
    · have hbeq : (r.golferId == gid) = false := by simpa using h
      have hhead : (if (r.golferId == gid) = true then upd r else r) = r := by
        simp [hbeq]
      rw [hhead, hbeq]
      simp only [Bool.not_false, Bool.true_and]
      rw [ih]

/-- The state after the upsert-to-out and guest deletion of the
out-branch of recordResponse, when the golfer has an existing response
row (the upsert takes its update path). -/
def clearedState (g : Golfer) (s : EventState) : EventState :=
  { responses := (s.responses.map
      (fun r => if r.golferId == g.id
        then { r with status := "out", position := none } else r)),
    guests := s.guests.filter (fun gu => gu.hostId != g.id),
    nextGuestId := s.nextGuestId }

theorem recordResponse_out_shape (g : Golfer) (s : EventState) (r0 : Response)
    (hfind : getResponseByGolferAndEvent s g.id = some r0) (hin : r0.status = "in")
    (p : Nat) (hpos : r0.position = some p) (hp : 1 ≤ p) :
    (recordResponse g "out" 0 s).1
      = (if p ≤ MAX_PLAYERS then (bumpWaitlist (clearedState g s)).1
         else clearedState g s)
    ∧ (recordResponse g "out" 0 s).2 = ⟨true, "Got it, you're out.", none⟩ := by
  have hfind' : s.responses.find? (fun r => r.golferId == g.id) = some r0 := hfind
  have hpr0 : (r0.golferId == g.id) = true :=
    List.find?_some (p := fun r : Response => r.golferId == g.id) hfind'
  have hany : s.responses.any (fun r => r.golferId == g.id) = true := by
    rw [List.any_eq_true]
    exact ⟨r0, List.mem_of_find?_eq_some hfind', hpr0⟩
  have hupsert : upsertResponse g.id g.name "out" none s
      = { s with responses := (s.responses.map
          (fun r : Response => if r.golferId == g.id
            then { r with status := "out", position := none } else r)) } := by
    unfold upsertResponse
    rw [hany]
    simp
  have hne : (p != 0) = true := by
    simp only [bne_iff_ne, ne_eq]
    omega
  unfold recordResponse
  rw [hfind]
  simp only [hin, hpos, hupsert, hne]
  simp only [show (("out" == "in")) = false from rfl, show (("out" == "out")) = true from rfl,
    show (("in" == "in")) = true from rfl, Bool.false_eq_true, if_false, if_true,
    Bool.true_and, decide_eq_true_eq]
  refine ⟨?_, trivial⟩
  by_cases hple : p ≤ MAX_PLAYERS <;> simp [hple, clearedState]

/-- C10: the promotion pass never touches guest rows and never selects a
guest: bumpWaitlist leaves the guests table identical, returns either
nothing (and then changes nothing at all) or a row drawn from the
responses table with status 'in' and position > 16, and every response row
of a different golfer survives unchanged. -/
theorem c10_promotion_frame (s : EventState) :
    (bumpWaitlist s).1.guests = s.guests
    ∧ ((bumpWaitlist s).2 = none → (bumpWaitlist s).1 = s)
    ∧ (∀ w, (bumpWaitlist s).2 = some w →
        w ∈ s.responses ∧ w.status = "in" ∧ MAX_PLAYERS < posOf w
        ∧ ∀ r ∈ s.responses, r.golferId ≠ w.golferId →
            r ∈ (bumpWaitlist s).1.responses) := by
  have hmemw : ∀ w, getFirstWaitlisted s = some w →
      w ∈ s.responses ∧ w.status = "in" ∧ MAX_PLAYERS < posOf w := by
    intro w h
    have hw := minByPos_mem _ w h
    rw [List.mem_filter] at hw
    refine ⟨hw.1, ?_, ?_⟩
    · have h2 := hw.2
      simp only [Bool.and_eq_true, beq_iff_eq, decide_eq_true_eq] at h2
      exact h2.1
    · have h2 := hw.2
      simp only [Bool.and_eq_true, beq_iff_eq, decide_eq_true_eq] at h2
      exact h2.2
  rcases hfw : getFirstWaitlisted s with _ | w0
  · have hb : bumpWaitlist s = (s, none) := by
      unfold bumpWaitlist
      rw [hfw]
    rw [hb]
    exact ⟨rfl, fun _ => rfl, fun w h => by cases h⟩
  · by_cases hle : firstFreePos
        (((s.responses.filter
            (fun r => r.status == "in" && decide (posOf r ≤ MAX_PLAYERS))).map posOf)
          ++ ((s.guests.filter
            (fun gu => decide (gu.position ≤ MAX_PLAYERS))).map
            (fun gu => gu.position))) ≤ MAX_PLAYERS
    · have hb : bumpWaitlist s
          = ({ s with responses := (s.responses.map
              (fun r => if r.golferId == w0.golferId
                then { r with position := some (firstFreePos
                  (((s.responses.filter
                      (fun r => r.status == "in" && decide (posOf r ≤ MAX_PLAYERS))).map posOf)
                    ++ ((s.guests.filter
                      (fun gu => decide (gu.position ≤ MAX_PLAYERS))).map
                      (fun gu => gu.position)))) } else r)) },
            some w0) := by
        unfold bumpWaitlist
        rw [hfw]
        dsimp only
        rw [if_pos hle]
      rw [hb]
      refine ⟨rfl, ?_, ?_⟩
      · intro h
        simp at h
      intro w h
      have hww : w0 = w := Option.some.inj h
      subst hww
      refine ⟨(hmemw w0 hfw).1, (hmemw w0 hfw).2.1, (hmemw w0 hfw).2.2, ?_⟩
      intro r hr hne
      apply List.mem_map.mpr
      refine ⟨r, hr, ?_⟩
      rw [if_neg (by simpa using hne)]
    · have hb : bumpWaitlist s = (s, none) := by
        unfold bumpWaitlist
        rw [hfw]
        dsimp only
        rw [if_neg hle]
      rw [hb]
      exact ⟨rfl, fun _ => rfl, fun w h => by cases h⟩

/-- C2: when a golfer holding a confirmed position p ≤ 16 records `out` in
a well-formed state (distinct golfer rows, distinct positions across
responses and guests) with at least one waitlisted response, exactly one
response row is promoted: the waitlisted one of numerically lowest
position, and it moves to the first-fit lowest unused position of [1, 16]
over the surviving confirmed response and guest positions (not necessarily
the vacated number); every other row keeps its position, the cancelled
golfer's row is cleared, and nothing else changes. -/
theorem c2_out_promotes_single_lowest_waitlisted (g : Golfer) (s : EventState)
    (r0 : Response)
    (hfind : getResponseByGolferAndEvent s g.id = some r0)
    (hin : r0.status = "in") (p : Nat) (hpos : r0.position = some p)
    (hp1 : 1 ≤ p) (hple : p ≤ MAX_PLAYERS)
    (hnd : (s.responses.map Response.golferId).Nodup)
    (hwf : (takenAllPositions s).Nodup)
    (r1 : Response) (hr1 : r1 ∈ s.responses) (hr1in : r1.status = "in")
    (hr1wl : MAX_PLAYERS < posOf r1) :
    ∃ w newPos,
      (w ∈ s.responses ∧ w.status = "in" ∧ MAX_PLAYERS < posOf w)
      ∧ (∀ r ∈ s.responses, r.status = "in" → MAX_PLAYERS < posOf r →
          posOf w ≤ posOf r)
      ∧ 1 ≤ newPos ∧ newPos ≤ MAX_PLAYERS
      ∧ (∀ r ∈ s.responses, r.golferId ≠ g.id → r.status = "in" →
          posOf r ≠ newPos)
      ∧ (∀ gu ∈ s.guests, gu.hostId ≠ g.id → gu.position ≠ newPos)
      ∧ (∀ q, 1 ≤ q → q < newPos →
          (∃ r ∈ s.responses, r.golferId ≠ g.id ∧ r.status = "in"
            ∧ posOf r = q)
          ∨ (∃ gu ∈ s.guests, gu.hostId ≠ g.id ∧ gu.position = q))
      ∧ (recordResponse g "out" 0 s).1.responses
          = s.responses.map (fun r =>
              if r.golferId = g.id then { r with status := "out", position := none }
              else if r.golferId = w.golferId then { r with position := some newPos }
              else r) := by
  have hfind' : s.responses.find? (fun r => r.golferId == g.id) = some r0 := hfind
  have hr0mem : r0 ∈ s.responses := List.mem_of_find?_eq_some hfind'
  have hg0 : r0.golferId = g.id := by
    have hpr0 : (r0.golferId == g.id) = true :=
      List.find?_some (p := fun r : Response => r.golferId == g.id) hfind'
    simpa using hpr0
  have hposr0 : posOf r0 = p := by simp [posOf, hpos]
  have hinj := List.inj_on_of_nodup_map hnd
  -- any in-response above capacity belongs to a golfer other than g
  have hnotg : ∀ r ∈ s.responses, r.status = "in" → MAX_PLAYERS < posOf r →
      r.golferId ≠ g.id := by
    intro r hr _ hgt heq
    have hrr0 : r = r0 := hinj hr hr0mem (by rw [heq, hg0])
    rw [hrr0, hposr0] at hgt
    omega
  -- the filtered waitlist of the cleared state, in source-state terms
  have hLfil : ((clearedState g s).responses.filter
        (fun r => r.status == "in" && decide (MAX_PLAYERS < posOf r)))
      = s.responses.filter (fun r => !(r.golferId == g.id)
          && (r.status == "in" && decide (MAX_PLAYERS < posOf r))) := by
    exact filter_map_golfer_update s.responses g.id
      (fun r => { r with status := "out", position := none })
      (fun r => r.status == "in" && decide (MAX_PLAYERS < posOf r))
      (fun r => by simp)
  have hr1ne : r1.golferId ≠ g.id := hnotg r1 hr1 hr1in hr1wl
  have hr1L : r1 ∈ s.responses.filter (fun r => !(r.golferId == g.id)
      && (r.status == "in" && decide (MAX_PLAYERS < posOf r))) := by
    rw [List.mem_filter]
    exact ⟨hr1, by simp [hr1ne, hr1in, hr1wl]⟩
  -- the selected entry
  obtain ⟨w, hm⟩ : ∃ w, minByPos (s.responses.filter (fun r => !(r.golferId == g.id)
      && (r.status == "in" && decide (MAX_PLAYERS < posOf r)))) = some w := by
    cases hm0 : minByPos (s.responses.filter (fun r => !(r.golferId == g.id)
        && (r.status == "in" && decide (MAX_PLAYERS < posOf r)))) with
    | none =>
      rw [minByPos_eq_none] at hm0
      rw [hm0] at hr1L
      cases hr1L
    | some w => exact ⟨w, rfl⟩
  have hfw : getFirstWaitlisted (clearedState g s) = some w := by
    unfold getFirstWaitlisted
    rw [hLfil]
    exact hm
  have hwdec := minByPos_mem _ w hm
  rw [List.mem_filter] at hwdec
  obtain ⟨hwmem, hwbool⟩ := hwdec
  have hwne : w.golferId ≠ g.id := by
    simp only [Bool.and_eq_true, Bool.not_eq_eq_eq_not, Bool.not_true,
      beq_eq_false_iff_ne, ne_eq, beq_iff_eq, decide_eq_true_eq] at hwbool
    exact hwbool.1
  have hwin : w.status = "in" := by
    simp only [Bool.and_eq_true, beq_iff_eq, decide_eq_true_eq] at hwbool
    exact hwbool.2.1
  have hwgt : MAX_PLAYERS < posOf w := by
    simp only [Bool.and_eq_true, beq_iff_eq, decide_eq_true_eq] at hwbool
    exact hwbool.2.2
  have hmin : ∀ r ∈ s.responses, r.status = "in" → MAX_PLAYERS < posOf r →
      posOf w ≤ posOf r := by
    intro r hr hin' hgt
    exact minByPos_min _ w hm r (List.mem_filter.mpr
      ⟨hr, by simp [hnotg r hr hin' hgt, hin', hgt]⟩)
  -- the taken-position list of the cleared state, in source-state terms
  have hA0 : ((clearedState g s).responses.filter
        (fun r => r.status == "in" && decide (posOf r ≤ MAX_PLAYERS)))
      = s.responses.filter (fun r => !(r.golferId == g.id)
          && (r.status == "in" && decide (posOf r ≤ MAX_PLAYERS))) :=
    filter_map_golfer_update s.responses g.id
      (fun r => { r with status := "out", position := none })
      (fun r => r.status == "in" && decide (posOf r ≤ MAX_PLAYERS))
      (fun r => by simp)
  have hA : ((clearedState g s).responses.filter
        (fun r => r.status == "in" && decide (posOf r ≤ MAX_PLAYERS))).map posOf
      = (s.responses.filter (fun r => !(r.golferId == g.id)
          && (r.status == "in" && decide (posOf r ≤ MAX_PLAYERS)))).map posOf := by
    rw [hA0]
  have hB : ((clearedState g s).guests.filter
        (fun gu => decide (gu.position ≤ MAX_PLAYERS))).map (fun gu => gu.position)
      = (s.guests.filter (fun gu => decide (gu.position ≤ MAX_PLAYERS)
          && (gu.hostId != g.id))).map (fun gu => gu.position) := by
    show ((s.guests.filter (fun gu => gu.hostId != g.id)).filter
        (fun gu => decide (gu.position ≤ MAX_PLAYERS))).map (fun gu => gu.position) = _
    rw [List.filter_filter]
  -- the combined position lists of the source state
  have hwf' := hwf
  unfold takenAllPositions at hwf'
  rw [List.nodup_append] at hwf'
  obtain ⟨hL1, hL2, hdisj⟩ := hwf'
  have hpL1 : p ∈ (s.responses.filter (fun r => r.status == "in")).map posOf := by
    apply List.mem_map.mpr
    exact ⟨r0, List.mem_filter.mpr ⟨hr0mem, by simp [hin]⟩, hposr0⟩
  -- the vacated position is free among the survivors
  have htkA : ¬ p ∈ (s.responses.filter (fun r => !(r.golferId == g.id)
      && (r.status == "in" && decide (posOf r ≤ MAX_PLAYERS)))).map posOf := by
    intro hmem
    obtain ⟨r, hrf, hrp⟩ := List.mem_map.mp hmem
    rw [List.mem_filter] at hrf
    obtain ⟨hrmem, hrbool⟩ := hrf
    simp only [Bool.and_eq_true, Bool.not_eq_eq_eq_not, Bool.not_true,
      beq_eq_false_iff_ne, ne_eq, beq_iff_eq, decide_eq_true_eq] at hrbool
    have hrr0 : r = r0 := by
      apply List.inj_on_of_nodup_map hL1
      · exact List.mem_filter.mpr ⟨hrmem, by simp [hrbool.2.1]⟩
      · exact List.mem_filter.mpr ⟨hr0mem, by simp [hin]⟩
      · rw [hrp, hposr0]
    exact hrbool.1 (by rw [hrr0, hg0])
  have htkB : ¬ p ∈ (s.guests.filter (fun gu => decide (gu.position ≤ MAX_PLAYERS)
      && (gu.hostId != g.id))).map (fun gu => gu.position) := by
    intro hmem
    obtain ⟨gu, hguf, hgup⟩ := List.mem_map.mp hmem
    rw [List.mem_filter] at hguf
    exact hdisj hpL1 (List.mem_map.mpr ⟨gu, hguf.1, hgup⟩)
  have htk : ¬ p ∈ (((clearedState g s).responses.filter
        (fun r => r.status == "in" && decide (posOf r ≤ MAX_PLAYERS))).map posOf
      ++ ((clearedState g s).guests.filter
        (fun gu => decide (gu.position ≤ MAX_PLAYERS))).map (fun gu => gu.position)) := by
    rw [hA, hB]
    intro hmem
    rcases List.mem_append.mp hmem with hmem | hmem
    · exact htkA hmem
    · exact htkB hmem
  obtain ⟨hff1, hffle, hffnotin, hffleast⟩ :=
    firstFreePos_spec _ p hp1 hple htk
  set tk := (((clearedState g s).responses.filter
        (fun r => r.status == "in" && decide (posOf r ≤ MAX_PLAYERS))).map posOf
      ++ ((clearedState g s).guests.filter
        (fun gu => decide (gu.position ≤ MAX_PLAYERS))).map (fun gu => gu.position))
    with htkdef
  have htkiff : ∀ q, q ∈ tk ↔
      (q ∈ (s.responses.filter (fun r => !(r.golferId == g.id)
          && (r.status == "in" && decide (posOf r ≤ MAX_PLAYERS)))).map posOf
        ∨ q ∈ (s.guests.filter (fun gu => decide (gu.position ≤ MAX_PLAYERS)
          && (gu.hostId != g.id))).map (fun gu => gu.position)) := by
    intro q
    rw [htkdef, hA, hB]
    exact List.mem_append
  refine ⟨w, firstFreePos tk, ⟨hwmem, hwin, hwgt⟩, hmin, hff1, hffle, ?_, ?_, ?_, ?_⟩
  · -- no surviving in-response already holds the new position
    intro r hr hrne hrin heq
    by_cases hrle : posOf r ≤ MAX_PLAYERS
    · apply hffnotin
      apply (htkiff _).mpr
      left
      apply List.mem_map.mpr
      exact ⟨r, List.mem_filter.mpr ⟨hr, by simp [hrne, hrin, hrle]⟩, heq⟩
    · rw [← heq] at hffle
      omega
  · -- no surviving guest already holds the new position
    intro gu hgu hgune heq
    by_cases hgule : gu.position ≤ MAX_PLAYERS
    · apply hffnotin
      apply (htkiff _).mpr
      right
      apply List.mem_map.mpr
      refine ⟨gu, List.mem_filter.mpr ⟨hgu, ?_⟩, heq⟩
      simp [hgule, hgune]
    · rw [← heq] at hffle
      omega
  · -- first fit: everything below the new position is taken by a survivor
    intro q hq1 hq2
    have hqmem := (htkiff q).mp (hffleast q hq1 hq2)
    rcases hqmem with hmem | hmem
    · obtain ⟨r, hrf, hrp⟩ := List.mem_map.mp hmem
      rw [List.mem_filter] at hrf
      obtain ⟨hrmem, hrbool⟩ := hrf
      simp only [Bool.and_eq_true, Bool.not_eq_eq_eq_not, Bool.not_true,
        beq_eq_false_iff_ne, ne_eq, beq_iff_eq, decide_eq_true_eq] at hrbool
      exact Or.inl ⟨r, hrmem, hrbool.1, hrbool.2.1, hrp⟩
    · obtain ⟨gu, hguf, hgup⟩ := List.mem_map.mp hmem
      rw [List.mem_filter] at hguf
      obtain ⟨hgumem, hgubool⟩ := hguf
      simp only [Bool.and_eq_true, bne_iff_ne, ne_eq, decide_eq_true_eq] at hgubool
      exact Or.inr ⟨gu, hgumem, hgubool.2, hgup⟩
  · -- the final response table: g cleared, w promoted, all else untouched
    have hshape := (recordResponse_out_shape g s r0 hfind hin p hpos hp1).1
    rw [if_pos hple] at hshape
    have hb : bumpWaitlist (clearedState g s)
        = ({ clearedState g s with responses := ((clearedState g s).responses.map
            (fun r => if r.golferId == w.golferId
              then { r with position := some (firstFreePos tk) } else r)) },
          some w) := by
      unfold bumpWaitlist
      rw [hfw]
      dsimp only
      rw [htkdef] at hffle
      rw [if_pos hffle]
    rw [hshape, hb]
    show ((s.responses.map (fun r => if r.golferId == g.id
        then { r with status := "out", position := none } else r)).map
        (fun r => if r.golferId == w.golferId
          then { r with position := some (firstFreePos tk) } else r)) = _
    rw [List.map_map]
    apply List.map_congr_left
    intro r _
    by_cases hrg : r.golferId = g.id
    · have h1 : (r.golferId == g.id) = true := by simpa using hrg
      have h2 : (({ r with status := "out", position := none} : Response).golferId
          == w.golferId) = false := by
        simp only [beq_eq_false_iff_ne, ne_eq]
        intro hc
        exact hwne (by rw [← hc, hrg])
      simp only [Function.comp_apply, h1, if_true, h2, Bool.false_eq_true, if_false,
        if_pos hrg]
    · have h1 : (r.golferId == g.id) = false := by simpa using hrg
      by_cases hrw : r.golferId = w.golferId
      · have h2 : (r.golferId == w.golferId) = true := by simpa using hrw
        simp only [Function.comp_apply, h1, Bool.false_eq_true, if_false, h2, if_true,
          if_neg hrg, if_pos hrw]
      · have h2 : (r.golferId == w.golferId) = false := by simpa using hrw
        simp only [Function.comp_apply, h1, Bool.false_eq_true, if_false, h2,
          if_neg hrg, if_neg hrw]

theorem bumpWaitlist_guests (s : EventState) :
    (bumpWaitlist s).1.guests = s.guests := by
  unfold bumpWaitlist
  cases hfw : getFirstWaitlisted s with
  | none => rfl
  | some w =>
    dsimp only
    split
    · rfl
    · rfl

theorem getFirstWaitlisted_cleared_ne (g : Golfer) (s : EventState) :
    ∀ w, getFirstWaitlisted (clearedState g s) = some w → w.golferId ≠ g.id := by
  intro w h
  have hmem := minByPos_mem _ w h
  rw [List.mem_filter] at hmem
  obtain ⟨hwmem, hbool⟩ := hmem
  obtain ⟨r, _, hru⟩ := List.mem_map.mp hwmem
  by_cases hrg : r.golferId = g.id
  · rw [if_pos (by simpa using hrg)] at hru
    rw [← hru] at hbool
    simp at hbool
  · rw [if_neg (by simpa using hrg)] at hru
    rw [← hru]
    exact hrg

theorem clearedState_g_rows (g : Golfer) (s : EventState) :
    ∀ x ∈ (clearedState g s).responses, x.golferId = g.id →
      x.status = "out" ∧ x.position = none := by
  intro x hx hxg
  obtain ⟨r, _, hru⟩ := List.mem_map.mp hx
  by_cases hrg : r.golferId = g.id
  · rw [if_pos (by simpa using hrg)] at hru
    rw [← hru]
    exact ⟨rfl, rfl⟩
  · rw [if_neg (by simpa using hrg)] at hru
    rw [← hru] at hxg
    exact absurd hxg hrg

theorem upsertResponse_guests (gid : Nat) (nm st : String) (pos : Option Nat)
    (s : EventState) : (upsertResponse gid nm st pos s).guests = s.guests := by
  unfold upsertResponse
  split <;> rfl

theorem recordResponse_out_noop_shape (g : Golfer) (s : EventState)
    (hwas : ∀ r0, getResponseByGolferAndEvent s g.id = some r0 → r0.status ≠ "in") :
    (recordResponse g "out" 0 s).1
      = { upsertResponse g.id g.name "out" none s with
          guests := s.guests.filter (fun gu => gu.hostId != g.id) }
    ∧ (recordResponse g "out" 0 s).2 = ⟨true, "Got it, you're out.", none⟩ := by
  unfold recordResponse
  rcases he : getResponseByGolferAndEvent s g.id with _ | r0
  · simp only [show (("out" == "in")) = false from rfl,
      show (("out" == "out")) = true from rfl, Bool.false_eq_true, if_false, if_true,
      Bool.false_and]
    rw [upsertResponse_guests]
    exact ⟨rfl, trivial⟩
  · have hne : (r0.status == "in") = false := by simpa using hwas r0 he
    simp only [hne, show (("out" == "in")) = false from rfl,
      show (("out" == "out")) = true from rfl, Bool.false_eq_true, if_false, if_true,
      Bool.false_and]
    rw [upsertResponse_guests]
    exact ⟨rfl, trivial⟩

/-- C4: recording `out` with a prior `in` at position p clears that row
(status 'out', position null), deletes every guest hosted by the golfer,
and runs the promotion pass exactly when p ≤ 16; recording `out` with no
prior `in` (or already `out`) changes nothing beyond the response upsert
(the golfer hosting no guests, as a never-in or out golfer does in any
reachable state) and never triggers promotion. -/
theorem c4_out_clears_and_promotes_iff_confirmed (g : Golfer) (s : EventState) :
    (∀ r0, getResponseByGolferAndEvent s g.id = some r0 → r0.status = "in" →
      ∀ p, r0.position = some p → 1 ≤ p →
        ((recordResponse g "out" 0 s).1
            = (if p ≤ MAX_PLAYERS then (bumpWaitlist (clearedState g s)).1
               else clearedState g s))
        ∧ (∀ x ∈ (recordResponse g "out" 0 s).1.responses,
            x.golferId = g.id → x.status = "out" ∧ x.position = none)
        ∧ (∀ gu ∈ (recordResponse g "out" 0 s).1.guests, gu.hostId ≠ g.id)
        ∧ (recordResponse g "out" 0 s).2 = ⟨true, "Got it, you're out.", none⟩)
    ∧ ((∀ r0, getResponseByGolferAndEvent s g.id = some r0 → r0.status ≠ "in") →
      (∀ gu ∈ s.guests, gu.hostId ≠ g.id) →
        (recordResponse g "out" 0 s).1 = upsertResponse g.id g.name "out" none s
        ∧ (recordResponse g "out" 0 s).2 = ⟨true, "Got it, you're out.", none⟩) := by
  constructor
  · intro r0 hfind hin p hpos hp1
    obtain ⟨hstate, hres⟩ := recordResponse_out_shape g s r0 hfind hin p hpos hp1
    refine ⟨hstate, ?_, ?_, hres⟩
    · -- the cancelled golfer's row is cleared, also after the promotion pass
      intro x hx hxg
      rw [hstate] at hx
      by_cases hple : p ≤ MAX_PLAYERS
      · rw [if_pos hple] at hx
        unfold bumpWaitlist at hx
        rcases hfw : getFirstWaitlisted (clearedState g s) with _ | w
        · rw [hfw] at hx
          exact clearedState_g_rows g s x hx hxg
        · rw [hfw] at hx
          dsimp only at hx
          split at hx
          · obtain ⟨y, hy, hyx⟩ := List.mem_map.mp hx
            have hwne := getFirstWaitlisted_cleared_ne g s w hfw
            by_cases hyw : y.golferId = w.golferId
            · rw [if_pos (by simpa using hyw)] at hyx
              have hxgy : x.golferId = y.golferId := by rw [← hyx]
              rw [hxgy] at hxg
              exact absurd (by rw [← hyw]; exact hxg) hwne
            · rw [if_neg (by simpa using hyw)] at hyx
              rw [← hyx]
              rw [← hyx] at hxg
              exact clearedState_g_rows g s y hy hxg
          · exact clearedState_g_rows g s x hx hxg
      · rw [if_neg hple] at hx
        exact clearedState_g_rows g s x hx hxg
    · -- the golfer's guests are gone, also after the promotion pass
      intro gu hgu
      rw [hstate] at hgu
      have hgu' : gu ∈ (clearedState g s).guests := by
        by_cases hple : p ≤ MAX_PLAYERS
        · rw [if_pos hple, bumpWaitlist_guests] at hgu
          exact hgu
        · rw [if_neg hple] at hgu
          exact hgu
      have := (List.mem_filter.mp hgu').2
      simpa using this
  · intro hwas hg
    obtain ⟨hstate, hres⟩ := recordResponse_out_noop_shape g s hwas
    refine ⟨?_, hres⟩
    rw [hstate]
    have hfil : s.guests.filter (fun gu => gu.hostId != g.id) = s.guests := by
      apply List.filter_eq_self.mpr
      intro gu hgu
      simpa using hg gu hgu
    rw [hfil, ← upsertResponse_guests g.id g.name "out" none s]

/-! ### Guest reconciliation lemmas -/

theorem addGuestsLoop_spec (g : Golfer) : ∀ (n : Nat) (s : EventState),
    addGuestsLoop g n s
      = { s with
          guests := s.guests ++ (List.range n).map (fun i =>
            ⟨s.nextGuestId + i, g.id, g.name ++ "'s Guest",
              getTotalConfirmedCount s + i + 1⟩),
          nextGuestId := s.nextGuestId + n } := by
  intro n
  induction n with
  | zero =>
    intro s
    simp [addGuestsLoop]
  | succ n ih =>
    intro s
    show addGuestsLoop g n _ = _
    have hpos : (if getTotalConfirmedCount s < MAX_PLAYERS
        then getTotalConfirmedCount s + 1 else getTotalConfirmedCount s + 1)
        = getTotalConfirmedCount s + 1 := by split <;> rfl
    rw [hpos, ih]
    dsimp only
    have htot : getTotalConfirmedCount { s with
        guests := s.guests ++ [⟨s.nextGuestId, g.id, g.name ++ "'s Guest",
          getTotalConfirmedCount s + 1⟩],
        nextGuestId := s.nextGuestId + 1 } = getTotalConfirmedCount s + 1 := by
      unfold getTotalConfirmedCount getInCountForEvent getGuestCountForEvent
      simp
      omega
    rw [htot]
    have hrange : (List.range (n + 1)).map (fun i =>
        (⟨s.nextGuestId + i, g.id, g.name ++ "'s Guest",
          getTotalConfirmedCount s + i + 1⟩ : Guest))
        = (⟨s.nextGuestId, g.id, g.name ++ "'s Guest",
            getTotalConfirmedCount s + 1⟩ : Guest)
          :: (List.range n).map (fun i =>
            ⟨s.nextGuestId + 1 + i, g.id, g.name ++ "'s Guest",
              getTotalConfirmedCount s + 1 + i + 1⟩) := by
      rw [List.range_succ_eq_map, List.map_cons, List.map_map]
      have ht : (List.range n).map ((fun i => (⟨s.nextGuestId + i, g.id,
            g.name ++ "'s Guest", getTotalConfirmedCount s + i + 1⟩ : Guest))
            ∘ Nat.succ)
          = (List.range n).map (fun i => ⟨s.nextGuestId + 1 + i, g.id,
              g.name ++ "'s Guest", getTotalConfirmedCount s + 1 + i + 1⟩) := by
        apply List.map_congr_left
        intro i _
        show (⟨s.nextGuestId + (i + 1), g.id, g.name ++ "'s Guest",
            getTotalConfirmedCount s + (i + 1) + 1⟩ : Guest) = _
        have h1 : s.nextGuestId + (i + 1) = s.nextGuestId + 1 + i := by omega
        have h2 : getTotalConfirmedCount s + (i + 1) + 1
            = getTotalConfirmedCount s + 1 + i + 1 := by omega
        rw [h1, h2]
      simp only [Nat.add_zero]
      rw [ht]
    rw [hrange]
    have hassoc : (s.guests ++ [(⟨s.nextGuestId, g.id, g.name ++ "'s Guest",
        getTotalConfirmedCount s + 1⟩ : Guest)])
        ++ (List.range n).map (fun i =>
          (⟨s.nextGuestId + 1 + i, g.id, g.name ++ "'s Guest",
            getTotalConfirmedCount s + 1 + i + 1⟩ : Guest))
        = s.guests ++ ((⟨s.nextGuestId, g.id, g.name ++ "'s Guest",
            getTotalConfirmedCount s + 1⟩ : Guest)
          :: (List.range n).map (fun i =>
            ⟨s.nextGuestId + 1 + i, g.id, g.name ++ "'s Guest",
              getTotalConfirmedCount s + 1 + i + 1⟩)) := by
      rw [List.append_assoc, List.singleton_append]
    rw [hassoc]
    have hnid : s.nextGuestId + 1 + n = s.nextGuestId + (n + 1) := by omega
    rw [hnid]

theorem deleteGuestsByIds_spec : ∀ (ids : List Nat) (s : EventState),
    deleteGuestsByIds ids s
      = { s with guests := s.guests.filter (fun gu => !(ids.contains gu.id)) } := by
  intro ids
  induction ids with
  | nil =>
    intro s
    show s = _
    have hfil : s.guests.filter (fun gu => !(([] : List Nat).contains gu.id))
        = s.guests := by
      apply List.filter_eq_self.mpr
      intro gu _
      rfl
    rw [hfil]
  | cons i ids ih =>
    intro s
    show deleteGuestsByIds ids _ = _
    rw [ih]
    dsimp only
    rw [List.filter_filter]
    have hpred : ∀ gu ∈ s.guests,
        ((!ids.contains gu.id) && (gu.id != i))
          = (!((i :: ids).contains gu.id)) := by
      intro gu _
      show ((!ids.contains gu.id) && (gu.id != i)) = !((gu.id == i) || ids.contains gu.id)
      rw [Bool.not_or]
      rw [Bool.and_comm]
      rfl
    rw [List.filter_congr hpred]

theorem recordResponse_in_was_shape (g : Golfer) (s : EventState) (r0 : Response)
    (hfind : getResponseByGolferAndEvent s g.id = some r0) (hin : r0.status = "in")
    (guestCount : Nat)
    (hguard : ((guestCount == 0) && ((getGuestsByHost s g.id).length == 0)) = false) :
    (recordResponse g "in" guestCount s).1
      = (if (getGuestsByHost s g.id).length < guestCount then
          addGuestsLoop g (guestCount - (getGuestsByHost s g.id).length) s
        else if guestCount < (getGuestsByHost s g.id).length then
          deleteGuestsByIds (guestIdsToRemove (getGuestsByHost s g.id)
            ((getGuestsByHost s g.id).length - guestCount)) s
        else s) := by
  unfold recordResponse
  rw [hfind]
  simp only [hin, show (("in" == "in")) = true from rfl, Bool.true_and, if_true,
    hguard, Bool.false_eq_true, if_false]

/-- C5: guest reconciliation for an already-`in` golfer: a request with
more guests than hosted appends exactly the difference, each new guest
assigned getTotalConfirmedCount + 1 recomputed per insertion, so the
block takes consecutive positions; a request with fewer guests deletes
exactly the excess — the most recently added (last rows of the host's
guest list) first — keeps every remaining row verbatim (no renumbering),
and never runs the promotion pass (the response table is untouched in
both directions). -/
theorem c5_guest_reconciliation (g : Golfer) (s : EventState) (r0 : Response)
    (hfind : getResponseByGolferAndEvent s g.id = some r0) (hin : r0.status = "in")
    (guestCount : Nat) :
    ((getGuestsByHost s g.id).length < guestCount →
      (recordResponse g "in" guestCount s).1.responses = s.responses
      ∧ (recordResponse g "in" guestCount s).1.nextGuestId
          = s.nextGuestId + (guestCount - (getGuestsByHost s g.id).length)
      ∧ (recordResponse g "in" guestCount s).1.guests
          = s.guests ++ (List.range (guestCount - (getGuestsByHost s g.id).length)).map
              (fun i => ⟨s.nextGuestId + i, g.id, g.name ++ "'s Guest",
                getTotalConfirmedCount s + i + 1⟩))
    ∧ (guestCount < (getGuestsByHost s g.id).length →
      (recordResponse g "in" guestCount s).1.responses = s.responses
      ∧ (recordResponse g "in" guestCount s).1.guests
          = s.guests.filter (fun gu => !((((getGuestsByHost s g.id).reverse.take
              ((getGuestsByHost s g.id).length - guestCount)).map
              (fun x => x.id)).contains gu.id))) := by
  constructor
  · intro hlt
    have hguard : ((guestCount == 0) && ((getGuestsByHost s g.id).length == 0))
        = false := by
      have : guestCount ≠ 0 := by omega
      simp [this]
    have hshape := recordResponse_in_was_shape g s r0 hfind hin guestCount hguard
    rw [if_pos hlt] at hshape
    rw [hshape, addGuestsLoop_spec]
    exact ⟨rfl, rfl, rfl⟩
  · intro hlt
    have hguard : ((guestCount == 0) && ((getGuestsByHost s g.id).length == 0))
        = false := by
      have : (getGuestsByHost s g.id).length ≠ 0 := by omega
      simp [this]
    have hshape := recordResponse_in_was_shape g s r0 hfind hin guestCount hguard
    rw [if_neg (by omega), if_pos hlt] at hshape
    rw [hshape, deleteGuestsByIds_spec]
    exact ⟨rfl, rfl⟩

/-- The guest-count word of the confirmation messages:
guest${guestCount > 1 ? 's' : ''}. -/
def guestWordOf (n : Nat) : String := if 1 < n then "guests" else "guest"

/-- C7 counterexample: a golfer already `in` with one guest repeats
"in +1" (the same guest count): the position is unchanged and no guest
row is created or deleted, but the reply is the ordinary confirmation
"You're in (#1 of 16) with 1 guest", which does not indicate "already
in" — the already-in message is only produced when the repeated `in`
carries zero guests and none exist. -/
theorem c7_counterexample :
    ((recordResponse ⟨1, "G1"⟩ "in" 1
        (recordResponse ⟨1, "G1"⟩ "in" 1 emptyState).1).2.message
      = "You're in (#1 of 16) with 1 guest")
    ∧ ¬ ("already".data <:+: (recordResponse ⟨1, "G1"⟩ "in" 1
        (recordResponse ⟨1, "G1"⟩ "in" 1 emptyState).1).2.message.data)
    ∧ (recordResponse ⟨1, "G1"⟩ "in" 1
        (recordResponse ⟨1, "G1"⟩ "in" 1 emptyState).1).1
      = (recordResponse ⟨1, "G1"⟩ "in" 1 emptyState).1
    ∧ (recordResponse ⟨1, "G1"⟩ "in" 1
        (recordResponse ⟨1, "G1"⟩ "in" 1 emptyState).1).2.position = some 1 := by
  decide

/-- C7 amended: recording `in` again with the same guest count as before
leaves the whole event state (hence the position and all guest rows)
unchanged and reports the existing position; the message indicates
"already in" (or "already on waitlist") exactly when that guest count is
zero, and otherwise repeats the ordinary confirmation with the guest
count. -/
theorem c7_amended_repeat_in_unchanged (g : Golfer) (s : EventState)
    (r0 : Response)
    (hfind : getResponseByGolferAndEvent s g.id = some r0) (hin : r0.status = "in")
    (guestCount : Nat) (hsame : guestCount = (getGuestsByHost s g.id).length) :
    (recordResponse g "in" guestCount s).1 = s
    ∧ (recordResponse g "in" guestCount s).2.position = some (posOf r0)
    ∧ (guestCount = 0 →
        (recordResponse g "in" guestCount s).2.message
          = (if posOf r0 ≤ MAX_PLAYERS
             then s!"You're already in (#{posOf r0} of {MAX_PLAYERS})"
             else s!"You're already on waitlist #{posOf r0 - MAX_PLAYERS}"))
    ∧ (0 < guestCount →
        (recordResponse g "in" guestCount s).2.message
          = (if posOf r0 ≤ MAX_PLAYERS
             then s!"You're in (#{posOf r0} of {MAX_PLAYERS}) with {guestCount} {guestWordOf guestCount}"
             else s!"Waitlist #{posOf r0 - MAX_PLAYERS} with {guestCount} {guestWordOf guestCount}. We'll text you if spots open.")) := by
  by_cases hz : guestCount = 0
  · have hlen : (getGuestsByHost s g.id).length = 0 := by omega
    have hshape : recordResponse g "in" guestCount s
        = (s, ⟨true,
            if posOf r0 ≤ MAX_PLAYERS
            then s!"You're already in (#{posOf r0} of {MAX_PLAYERS})"
            else s!"You're already on waitlist #{posOf r0 - MAX_PLAYERS}",
            some (posOf r0)⟩) := by
      unfold recordResponse
      rw [hfind]
      simp only [hin, show (("in" == "in")) = true from rfl, Bool.true_and, if_true,
        hz, hlen]
      simp only [show ((0 == 0) && (0 == 0)) = true from rfl, if_true]
      by_cases hple : posOf r0 ≤ MAX_PLAYERS
      · rw [if_pos hple, if_pos hple]
      · rw [if_neg hple, if_neg hple]
    rw [hshape]
    refine ⟨rfl, rfl, fun _ => rfl, fun hgt => absurd hz (by omega)⟩
  · have hguard : ((guestCount == 0) && ((getGuestsByHost s g.id).length == 0))
        = false := by
      simp [hz]
    have hshape := recordResponse_in_was_shape g s r0 hfind hin guestCount hguard
    rw [if_neg (by omega), if_neg (by omega)] at hshape
    have hmsg : recordResponse g "in" guestCount s
        = ((recordResponse g "in" guestCount s).1, ⟨true,
            if posOf r0 ≤ MAX_PLAYERS
            then (if 0 < guestCount
              then s!"You're in (#{posOf r0} of {MAX_PLAYERS}) with {guestCount} {guestWordOf guestCount}"
              else s!"You're in (#{posOf r0} of {MAX_PLAYERS})")
            else (if 0 < guestCount
              then s!"Waitlist #{posOf r0 - MAX_PLAYERS} with {guestCount} {guestWordOf guestCount}. We'll text you if spots open."
              else s!"Waitlist #{posOf r0 - MAX_PLAYERS}. We'll text you if a spot opens."),
            some (posOf r0)⟩) := by
      unfold recordResponse guestWordOf
      rw [hfind]
      simp only [hin, show (("in" == "in")) = true from rfl, Bool.true_and, if_true,
        hguard, Bool.false_eq_true, if_false]
    refine ⟨hshape, ?_, fun h0 => absurd h0 hz, ?_⟩
    · rw [hmsg]
    · intro hgt
      rw [hmsg]
      show (if posOf r0 ≤ MAX_PLAYERS then _ else _) = _
      by_cases hple : posOf r0 ≤ MAX_PLAYERS
      · rw [if_pos hple, if_pos hple, if_pos hgt]
      · rw [if_neg hple, if_neg hple, if_pos hgt]

/-! ### Sorting lemmas for the summary builder -/

theorem stableInsert_perm (le : α → α → Bool) (x : α) :
    ∀ l : List α, (stableInsert le x l).Perm (x :: l) := by
  intro l
  induction l with
  | nil => exact List.Perm.refl _
  | cons y ys ih =>
    unfold stableInsert
    by_cases h : le y x = true
    · rw [if_pos h]
      exact (ih.cons y).trans (List.Perm.swap x y ys)
    · rw [if_neg h]

theorem foldl_stableInsert_perm (le : α → α → Bool) :
    ∀ l acc : List α,
      (l.foldl (fun acc x => stableInsert le x acc) acc).Perm (acc ++ l) := by
  intro l
  induction l with
  | nil => intro acc; simp
  | cons x xs ih =>
    intro acc
    show (xs.foldl _ (stableInsert le x acc)).Perm _
    have h1 := ih (stableInsert le x acc)
    have hins : (stableInsert le x acc).Perm (x :: acc) := stableInsert_perm le x acc
    have h2 : ((stableInsert le x acc) ++ xs).Perm (acc ++ x :: xs) :=
      (hins.append_right xs).trans List.perm_middle.symm
    exact h1.trans h2

theorem jsSortBy_perm (le : α → α → Bool) (l : List α) :
    (jsSortBy le l).Perm l := by
  have h := foldl_stableInsert_perm le l []
  simpa [jsSortBy] using h

theorem stableInsert_sorted (le : α → α → Bool)
    (htotal : ∀ a b, (le a b || le b a) = true)
    (htrans : ∀ a b c, le a b = true → le b c = true → le a c = true)
    (x : α) : ∀ l, List.Pairwise (fun a b => le a b = true) l →
      List.Pairwise (fun a b => le a b = true) (stableInsert le x l) := by
  intro l
  induction l with
  | nil =>
    intro _
    exact List.pairwise_singleton _ x
  | cons y ys ih =>
    intro hp
    rw [List.pairwise_cons] at hp
    obtain ⟨hy, hys⟩ := hp
    unfold stableInsert
    by_cases h : le y x = true
    · rw [if_pos h]
      rw [List.pairwise_cons]
      refine ⟨?_, ih hys⟩
      intro z hz
      have hmem := (stableInsert_perm le x ys).mem_iff.mp hz
      rcases List.mem_cons.mp hmem with hz' | hz'
      · rw [hz']; exact h
      · exact hy z hz'
    · rw [if_neg h]
      have hxy : le x y = true := by
        have htot := htotal x y
        cases hxy : le x y
        · rw [hxy] at htot
          simp at htot
          exact absurd htot h
        · rfl
      rw [List.pairwise_cons]
      refine ⟨?_, List.pairwise_cons.mpr ⟨hy, hys⟩⟩
      intro z hz
      rcases List.mem_cons.mp hz with hz' | hz'
      · rw [hz']; exact hxy
      · exact htrans x y z hxy (hy z hz')

theorem jsSortBy_sorted (le : α → α → Bool)
    (htotal : ∀ a b, (le a b || le b a) = true)
    (htrans : ∀ a b c, le a b = true → le b c = true → le a c = true)
    (l : List α) :
    List.Pairwise (fun a b => le a b = true) (jsSortBy le l) := by
  suffices h : ∀ l acc : List α, List.Pairwise (fun a b => le a b = true) acc →
      List.Pairwise (fun a b => le a b = true)
        (l.foldl (fun acc x => stableInsert le x acc) acc) by
    exact h l [] (List.Pairwise.nil)
  intro l
  induction l with
  | nil => intro acc hacc; exact hacc
  | cons x xs ih =>
    intro acc hacc
    exact ih (stableInsert le x acc) (stableInsert_sorted le htotal htrans x acc hacc)

theorem charListLe_total : ∀ a b : List Char, (charListLe a b || charListLe b a) = true := by
  intro a
  induction a with
  | nil => intro b; simp [charListLe]
  | cons x xs ih =>
    intro b
    cases b with
    | nil => simp [charListLe]
    | cons y ys =>
      unfold charListLe
      by_cases h1 : x.toNat < y.toNat
      · simp [h1]
      · by_cases h2 : y.toNat < x.toNat
        · simp [h1, h2]
        · simp [h1, h2, ih ys]

theorem charListLe_trans : ∀ a b c : List Char, charListLe a b = true →
    charListLe b c = true → charListLe a c = true := by
  intro a
  induction a with
  | nil => intro b c _ _; rfl
  | cons x xs ih =>
    intro b c hab hbc
    cases b with
    | nil => simp [charListLe] at hab
    | cons y ys =>
      cases c with
      | nil => simp [charListLe] at hbc
      | cons z zs =>
        unfold charListLe at hab hbc ⊢
        by_cases hxy : x.toNat < y.toNat
        · by_cases hyz : y.toNat < z.toNat
          · simp [show x.toNat < z.toNat by omega]
          · by_cases hzy : z.toNat < y.toNat
            · rw [if_neg hyz, if_pos hzy] at hbc
              simp at hbc
            · simp [show x.toNat < z.toNat by omega]
        · by_cases hyx : y.toNat < x.toNat
          · rw [if_neg hxy, if_pos hyx] at hab
            simp at hab
          · by_cases hyz : y.toNat < z.toNat
            · simp [show x.toNat < z.toNat by omega]
            · by_cases hzy : z.toNat < y.toNat
              · rw [if_neg hyz, if_pos hzy] at hbc
                simp at hbc
              · rw [if_neg hxy, if_neg hyx] at hab
                rw [if_neg hyz, if_neg hzy] at hbc
                have hxz : ¬ x.toNat < z.toNat := by omega
                have hzx : ¬ z.toNat < x.toNat := by omega
                rw [if_neg hxz, if_neg hzx]
                exact ih ys zs hab hbc

theorem jsStringLe_total : ∀ a b : String, (jsStringLe a b || jsStringLe b a) = true :=
  fun a b => charListLe_total a.data b.data

theorem jsStringLe_trans : ∀ a b c : String, jsStringLe a b = true →
    jsStringLe b c = true → jsStringLe a c = true :=
  fun a b c => charListLe_trans a.data b.data c.data

/-- Modelled from the spec's words for the confirmed bucket: confirmed
golfers and guests interleaved in ascending position order (the
refinement candidate the code's alphabetical sort is compared with). -/
def specConfirmedInterleaved (s : EventState) : List String :=
  ((jsSortBy (fun a b => a.1 ≤ b.1)
    (((s.responses.filter
        (fun r => r.status == "in" && decide (posOf r ≤ MAX_PLAYERS))).map
        (fun r => (posOf r, r.name)))
      ++ ((s.guests.filter (fun gu => decide (gu.position ≤ MAX_PLAYERS))).map
        (fun gu => (gu.position, gu.name)))))).map (fun x => x.2)

/-- C8 counterexample: with Zed at position 1 and Amy at position 2 the
summary's confirmed section reads "Amy, Zed" — the final default sort()
on names is alphabetical — while a position-interleaved bucket would read
"Zed, Amy"; the rest of the claimed rendering (counts, IN always present,
empty sections omitted) shows in the full output string. -/
theorem c8_counterexample :
    (generateSummary "Sunday 11/30" "Red" "8:08 AM" [⟨1, "Zed"⟩, ⟨2, "Amy"⟩]
        (recordResponse ⟨2, "Amy"⟩ "in" 0
          (recordResponse ⟨1, "Zed"⟩ "in" 0 emptyState).1).1
      = "Golf Sunday 11/30 Red - 2 confirmed\nTimes: 8:08 AM\n\nIN (2): Amy, Zed")
    ∧ confirmedNames (recordResponse ⟨2, "Amy"⟩ "in" 0
        (recordResponse ⟨1, "Zed"⟩ "in" 0 emptyState).1).1 = ["Amy", "Zed"]
    ∧ specConfirmedInterleaved (recordResponse ⟨2, "Amy"⟩ "in" 0
        (recordResponse ⟨1, "Zed"⟩ "in" 0 emptyState).1).1 = ["Zed", "Amy"]
    ∧ confirmedNames (recordResponse ⟨2, "Amy"⟩ "in" 0
          (recordResponse ⟨1, "Zed"⟩ "in" 0 emptyState).1).1
        ≠ specConfirmedInterleaved (recordResponse ⟨2, "Amy"⟩ "in" 0
          (recordResponse ⟨1, "Zed"⟩ "in" 0 emptyState).1).1 := by
  decide

/-- C8 amended: the confirmed bucket contains exactly the names of
in-responses at position ≤ 16 and guests at position ≤ 16, but sorted
alphabetically (JS default sort), not interleaved by position; the
summary always renders the IN section (falling back to "None" when the
joined list is empty) and renders each of the WAITLIST, OUT and
NO RESPONSE sections exactly when its bucket is non-empty, each with its
count and member names. -/
theorem c8_amended_summary_buckets (dd course times : String)
    (golfers : List Golfer) (s : EventState) :
    (confirmedNames s).Perm
      (((s.responses.filter
          (fun r => r.status == "in" && decide (posOf r ≤ MAX_PLAYERS))).map
          (fun r => r.name))
        ++ ((s.guests.filter (fun gu => decide (gu.position ≤ MAX_PLAYERS))).map
          (fun gu => gu.name)))
    ∧ List.Pairwise (fun a b => jsStringLe a b = true) (confirmedNames s)
    ∧ generateSummary dd course times golfers s
        = jsTrim (s!"Golf {dd} {course} - {(confirmedNames s).length} confirmed\n"
          ++ s!"Times: {times}\n\n"
          ++ s!"IN ({(confirmedNames s).length}): "
          ++ (if joinComma (confirmedNames s) == "" then "None"
              else joinComma (confirmedNames s)) ++ "\n\n"
          ++ (if 0 < (waitlistNames s).length then
              s!"WAITLIST ({(waitlistNames s).length}): "
                ++ joinComma (waitlistNames s) ++ "\n\n" else "")
          ++ (if 0 < (outNames s).length then
              s!"OUT ({(outNames s).length}): " ++ joinComma (outNames s) ++ "\n\n"
              else "")
          ++ (if 0 < (noResponseNames golfers s).length then
              s!"NO RESPONSE ({(noResponseNames golfers s).length}): "
                ++ joinComma (noResponseNames golfers s) else "")) := by
  refine ⟨?_, ?_, rfl⟩
  · unfold confirmedNames sortNames
    have h1 := jsSortBy_perm jsStringLe
      (confirmedGolferNames s ++ confirmedGuestNames s)
    apply h1.trans
    apply List.Perm.append
    · unfold confirmedGolferNames sortResponsesByPosition
      exact (jsSortBy_perm _ _).map _
    · unfold confirmedGuestNames sortGuestsByPosition
      exact (jsSortBy_perm _ _).map _
  · unfold confirmedNames sortNames
    exact jsSortBy_sorted jsStringLe jsStringLe_total jsStringLe_trans _

/-! ### The announcement-parsing claim -/

/-- Modelled from the spec's words: hour ≥ 12 means PM, otherwise AM. -/
def specAmPm (h : Nat) : String := if 12 ≤ h then "PM" else "AM"

/-- Modelled from the spec's words: hour 0 is displayed as 12, hours
above 12 wrap to h - 12, anything else displays as is. -/
def specDisplayHour (h : Nat) : Nat :=
  if h = 0 then 12 else if 12 < h then h - 12 else h

/-- The minute digits kept verbatim. -/
def minutesStr (a b : Char) : String := ⟨[a, b]⟩

theorem displayHour_eq (h : Nat) :
    (if 12 < h then h - 12 else if (h == 0) = true then 12 else h)
      = specDisplayHour h := by
  unfold specDisplayHour
  by_cases h0 : h = 0
  · have h12 : ¬ 12 < h := by omega
    simp [h0, h12]
  · by_cases h12 : 12 < h
    · simp [h0, h12]
    · simp [h0, h12]

/-- C9: the concrete announcement scenario parses as the spec states; a
`/`-separated time token is converted by the fixed-width rule (first one
or two digits are the hour, hour ≥ 12 rendered PM, hour 0 rendered as
12); and a malformed first-line date or zero valid time tokens yields
null (the parser is a total function — no exception path exists). -/
theorem c9_parse_manager_announcement :
    (parseManagerAnnouncement "Golf 11-30-2025\nRed\n808/1015\nIn or out"
      = some ⟨"2025-11-30", "Red", ["8:08 AM", "10:15 AM"]⟩)
    ∧ (∀ (raw : String) (c0 c1 c2 : Char),
        (removeFirstColon raw).data = [c0, c1, c2] →
        c0.isDigit = true → c1.isDigit = true → c2.isDigit = true →
        formatTime raw
          = some s!"{specDisplayHour (digitVal c0)}:{minutesStr c1 c2} {specAmPm (digitVal c0)}")
    ∧ (∀ (raw : String) (c0 c1 c2 c3 : Char),
        (removeFirstColon raw).data = [c0, c1, c2, c3] →
        c0.isDigit = true → c1.isDigit = true → c2.isDigit = true →
        c3.isDigit = true →
        formatTime raw
          = some s!"{specDisplayHour (10 * digitVal c0 + digitVal c1)}:{minutesStr c2 c3} {specAmPm (10 * digitVal c0 + digitVal c1)}")
    ∧ (∀ text, matchGolfDate ((announcementLines text).headD "") = none →
        parseManagerAnnouncement text = none)
    ∧ (∀ text, ((jsSplitOnChar '/' (((announcementLines text).drop 2).headD "")).map
          jsTrim).filterMap formatTime = [] →
        parseManagerAnnouncement text = none) := by
  refine ⟨by decide, ?_, ?_, ?_, ?_⟩
  · intro raw c0 c1 c2 hcl hd0 hd1 hd2
    unfold formatTime
    dsimp only
    rw [hcl]
    simp only [List.length_cons, List.length_nil, List.all_cons, List.all_nil,
      hd0, hd1, hd2, Bool.and_self, Bool.and_true, Bool.true_and]
    norm_num
    unfold specAmPm minutesStr
    rw [← displayHour_eq (digitVal c0)]
    simp
  · intro raw c0 c1 c2 c3 hcl hd0 hd1 hd2 hd3
    unfold formatTime
    dsimp only
    rw [hcl]
    simp only [List.length_cons, List.length_nil, List.all_cons, List.all_nil,
      hd0, hd1, hd2, hd3, Bool.and_self, Bool.and_true, Bool.true_and]
    norm_num
    unfold specAmPm minutesStr
    rw [← displayHour_eq (10 * digitVal c0 + digitVal c1)]
    simp
  · intro text hmd
    unfold parseManagerAnnouncement
    by_cases hlen : (announcementLines text).length < 3
    · rw [if_pos hlen]
    · rw [if_neg hlen, hmd]
  · intro text htimes
    unfold parseManagerAnnouncement
    by_cases hlen : (announcementLines text).length < 3
    · rw [if_pos hlen]
    · rw [if_neg hlen]
      cases hmd : matchGolfDate ((announcementLines text).headD "") with
      | none => rfl
      | some v =>
        obtain ⟨m, d, y⟩ := v
        dsimp only
        rw [htimes]
        rfl

/-! ### Concrete example states used by the witnesses -/

/-- Two golfers: one confirmed at position 1, one waitlisted at 17. -/
def exA : EventState :=
  ⟨[⟨1, "A", "in", some 1⟩, ⟨2, "B", "in", some 17⟩], [], 0⟩

/-- One golfer confirmed at position 1 hosting two guests at 2 and 3. -/
def exB : EventState :=
  ⟨[⟨1, "A", "in", some 1⟩], [⟨0, 1, "A's Guest", 2⟩, ⟨1, 1, "A's Guest", 3⟩], 2⟩

/-- Sixteen distinct golfers. -/
def gsixteen : List Golfer := (List.range 16).map (fun i => ⟨i + 1, "G"⟩)

/-- Witness for C1 at three concrete golfers. -/
theorem c1_sequential_in_positions_witness :
    (([(⟨1, "A"⟩ : Golfer), ⟨2, "B"⟩, ⟨3, "C"⟩].map Golfer.id).Nodup)
    ∧ (((runIns [⟨1, "A"⟩, ⟨2, "B"⟩, ⟨3, "C"⟩] emptyState).responses.map
          Response.position
        = (List.range' 1 3).map some)
      ∧ confirmedPositions (runIns [⟨1, "A"⟩, ⟨2, "B"⟩, ⟨3, "C"⟩] emptyState)
          = List.range' 1 (min 3 MAX_PLAYERS)
      ∧ (runIns [⟨1, "A"⟩, ⟨2, "B"⟩, ⟨3, "C"⟩] emptyState).guests = []
      ∧ ∀ k, k < 3 → k < MAX_PLAYERS →
          (runInsResults [⟨1, "A"⟩, ⟨2, "B"⟩, ⟨3, "C"⟩] emptyState).get? k
            = some ⟨true, s!"You're in (#{k + 1} of {MAX_PLAYERS})", some (k + 1)⟩) :=
  ⟨by decide, c1_sequential_in_positions [⟨1, "A"⟩, ⟨2, "B"⟩, ⟨3, "C"⟩] (by decide)⟩

/-- Witness for C3's amended statement at three concrete golfers. -/
theorem c3_amended_distinct_positions_witness :
    (([(⟨1, "A"⟩ : Golfer), ⟨2, "B"⟩, ⟨3, "C"⟩].map Golfer.id).Nodup)
    ∧ ((takenAllPositions (runIns [⟨1, "A"⟩, ⟨2, "B"⟩, ⟨3, "C"⟩] emptyState)).Nodup
      ∧ ((runInsResults [⟨1, "A"⟩, ⟨2, "B"⟩, ⟨3, "C"⟩] emptyState).map
          (fun res => res.position.getD 0) = List.range' 1 3)
      ∧ List.Pairwise (· < ·)
          ((runInsResults [⟨1, "A"⟩, ⟨2, "B"⟩, ⟨3, "C"⟩] emptyState).map
            (fun res => res.position.getD 0))) :=
  ⟨by decide, c3_amended_distinct_positions_pure_in [⟨1, "A"⟩, ⟨2, "B"⟩, ⟨3, "C"⟩]
    (by decide)⟩

/-- Witness for C2: golfer A (confirmed at 1) cancels while B waits at 17;
the promotion must exist and behave as stated. -/
theorem c2_out_promotes_witness :
    ∃ w newPos,
      (w ∈ exA.responses ∧ w.status = "in" ∧ MAX_PLAYERS < posOf w)
      ∧ (∀ r ∈ exA.responses, r.status = "in" → MAX_PLAYERS < posOf r →
          posOf w ≤ posOf r)
      ∧ 1 ≤ newPos ∧ newPos ≤ MAX_PLAYERS
      ∧ (∀ r ∈ exA.responses, r.golferId ≠ (⟨1, "A"⟩ : Golfer).id →
          r.status = "in" → posOf r ≠ newPos)
      ∧ (∀ gu ∈ exA.guests, gu.hostId ≠ (⟨1, "A"⟩ : Golfer).id →
          gu.position ≠ newPos)
      ∧ (∀ q, 1 ≤ q → q < newPos →
          (∃ r ∈ exA.responses, r.golferId ≠ (⟨1, "A"⟩ : Golfer).id
            ∧ r.status = "in" ∧ posOf r = q)
          ∨ (∃ gu ∈ exA.guests, gu.hostId ≠ (⟨1, "A"⟩ : Golfer).id
            ∧ gu.position = q))
      ∧ (recordResponse ⟨1, "A"⟩ "out" 0 exA).1.responses
          = exA.responses.map (fun r =>
              if r.golferId = (⟨1, "A"⟩ : Golfer).id
              then { r with status := "out", position := none }
              else if r.golferId = w.golferId then { r with position := some newPos }
              else r) :=
  c2_out_promotes_single_lowest_waitlisted ⟨1, "A"⟩ exA ⟨1, "A", "in", some 1⟩
    rfl rfl 1 rfl (by decide) (by decide) (by decide) (by decide)
    ⟨2, "B", "in", some 17⟩ (by decide) rfl (by decide)

/-- Witness for C4 at the same cancellation instance. -/
theorem c4_out_transition_witness :
    ((recordResponse ⟨1, "A"⟩ "out" 0 exA).1
        = (if 1 ≤ MAX_PLAYERS then (bumpWaitlist (clearedState ⟨1, "A"⟩ exA)).1
           else clearedState ⟨1, "A"⟩ exA))
    ∧ (∀ x ∈ (recordResponse ⟨1, "A"⟩ "out" 0 exA).1.responses,
        x.golferId = (⟨1, "A"⟩ : Golfer).id → x.status = "out" ∧ x.position = none)
    ∧ (∀ gu ∈ (recordResponse ⟨1, "A"⟩ "out" 0 exA).1.guests,
        gu.hostId ≠ (⟨1, "A"⟩ : Golfer).id)
    ∧ (recordResponse ⟨1, "A"⟩ "out" 0 exA).2
        = ⟨true, "Got it, you're out.", none⟩ :=
  (c4_out_clears_and_promotes_iff_confirmed ⟨1, "A"⟩ exA).1
    ⟨1, "A", "in", some 1⟩ rfl rfl 1 rfl (by decide)

/-- Witness for C5: A hosts two guests and asks for three, then asks for
one. -/
theorem c5_guest_reconciliation_witness :
    ((getGuestsByHost exB 1).length < 3 →
      (recordResponse ⟨1, "A"⟩ "in" 3 exB).1.responses = exB.responses
      ∧ (recordResponse ⟨1, "A"⟩ "in" 3 exB).1.nextGuestId
          = exB.nextGuestId + (3 - (getGuestsByHost exB 1).length)
      ∧ (recordResponse ⟨1, "A"⟩ "in" 3 exB).1.guests
          = exB.guests ++ (List.range (3 - (getGuestsByHost exB 1).length)).map
              (fun i => (⟨exB.nextGuestId + i, 1, "A" ++ "'s Guest",
                getTotalConfirmedCount exB + i + 1⟩ : Guest)))
    ∧ (1 < (getGuestsByHost exB 1).length →
      (recordResponse ⟨1, "A"⟩ "in" 1 exB).1.responses = exB.responses
      ∧ (recordResponse ⟨1, "A"⟩ "in" 1 exB).1.guests
          = exB.guests.filter (fun gu => !((((getGuestsByHost exB 1).reverse.take
              ((getGuestsByHost exB 1).length - 1)).map
              (fun x => x.id)).contains gu.id))) :=
  ⟨(c5_guest_reconciliation ⟨1, "A"⟩ exB ⟨1, "A", "in", some 1⟩ rfl rfl 3).1,
   (c5_guest_reconciliation ⟨1, "A"⟩ exB ⟨1, "A", "in", some 1⟩ rfl rfl 1).2⟩

/-- Witness for C6: the seventeenth distinct golfer after sixteen
sequential sign-ups lands on waitlist rank 1 at position 17. -/
theorem c6_waitlist_rank_witness :
    (((gsixteen ++ [(⟨17, "G"⟩ : Golfer)]).map Golfer.id).Nodup ∧ MAX_PLAYERS ≤ gsixteen.length)
    ∧ ((recordResponse ⟨17, "G"⟩ "in" 0 (runIns gsixteen emptyState)).2.position
        = some (gsixteen.length + 1)
      ∧ (recordResponse ⟨17, "G"⟩ "in" 0 (runIns gsixteen emptyState)).2.message
          = s!"Waitlist #{gsixteen.length - MAX_PLAYERS + 1}. We'll text you if a spot opens."
      ∧ ((runInsResults (gsixteen ++ [(⟨17, "G"⟩ : Golfer)]) emptyState).map
          (fun res => res.position.getD 0) = List.range' 1 (gsixteen.length + 1))
      ∧ List.Pairwise (· < ·)
          ((runInsResults (gsixteen ++ [(⟨17, "G"⟩ : Golfer)]) emptyState).map
            (fun res => res.position.getD 0))) :=
  ⟨⟨by decide, by decide⟩,
   c6_waitlist_rank_monotone gsixteen ⟨17, "G"⟩ (by decide) (by decide)⟩

/-- Witness for C7's amended statement: repeating "in +1" with one guest
already hosted. -/
theorem c7_amended_repeat_in_witness :
    ((recordResponse ⟨1, "A"⟩ "in" 2 exB).1 = exB)
    ∧ ((recordResponse ⟨1, "A"⟩ "in" 2 exB).2.position = some 1)
    ∧ ((2 : Nat) = 0 →
        (recordResponse ⟨1, "A"⟩ "in" 2 exB).2.message
          = (if 1 ≤ MAX_PLAYERS
             then s!"You're already in (#{1} of {MAX_PLAYERS})"
             else s!"You're already on waitlist #{1 - MAX_PLAYERS}"))
    ∧ ((0 : Nat) < 2 →
        (recordResponse ⟨1, "A"⟩ "in" 2 exB).2.message
          = (if 1 ≤ MAX_PLAYERS
             then s!"You're in (#{1} of {MAX_PLAYERS}) with {2} {guestWordOf 2}"
             else s!"Waitlist #{1 - MAX_PLAYERS} with {2} {guestWordOf 2}. We'll text you if spots open.")) := by
  have h := c7_amended_repeat_in_unchanged ⟨1, "A"⟩ exB ⟨1, "A", "in", some 1⟩
    rfl rfl 2 (by decide)
  exact h

/-- Witness for C9: the 3-digit rule at "808" and the null results at a
non-matching announcement. -/
theorem c9_parse_witness :
    (removeFirstColon "808").data = ['8', '0', '8']
    ∧ formatTime "808" = some "8:08 AM"
    ∧ parseManagerAnnouncement "banana" = none :=
  ⟨rfl,
   (c9_parse_manager_announcement.2.1 "808" '8' '0' '8' rfl rfl rfl rfl).trans
     (by decide),
   c9_parse_manager_announcement.2.2.2.1 "banana" rfl⟩

/-- Witness for C10 at the cancellation example state. -/
theorem c10_promotion_frame_witness :
    ((bumpWaitlist exA).1.guests = exA.guests)
    ∧ ((⟨2, "B", "in", some 17⟩ : Response) ∈ exA.responses
      ∧ (⟨2, "B", "in", some 17⟩ : Response).status = "in"
      ∧ MAX_PLAYERS < posOf ⟨2, "B", "in", some 17⟩
      ∧ ∀ r ∈ exA.responses, r.golferId ≠ (⟨2, "B", "in", some 17⟩ : Response).golferId →
          r ∈ (bumpWaitlist exA).1.responses) :=
  ⟨(c10_promotion_frame exA).1,
   (c10_promotion_frame exA).2.2 ⟨2, "B", "in", some 17⟩ rfl⟩

end TeeTime
